import Mathlib

/-!
Verification development for the `solid-permissions` library
(`src/permission-set.js` and its `Permission` / `GroupListing` collaborators).

Strings are modelled as `List Char` (written via `"...".data`), so that every
definition is executable and every concrete statement is kernel-decidable.
JavaScript objects are modelled as insertion-ordered association lists, and
JavaScript object *aliasing* (the agent/group indices hold references to the
very same `Permission` objects stored in the `permissions` map) is modelled
with an explicit object heap: a `PermissionSet` carries `objs : List Permission`
and the map/indices store `Ref := Nat` positions into it, so an in-place
mutation of a shared object is visible through every structure referring to it,
exactly as in the source.

Fallible operations (JavaScript `throw` / rejected promises) are modelled with
`Except Str`.
-/

namespace SolidPermissions

/-- Characters lists standing in for JavaScript strings. -/
abbrev Str := List Char

/-- References into a `PermissionSet`'s object heap. -/
abbrev Ref := Nat

/-- Lexicographic order on strings, as used by JavaScript `Array.prototype.sort()`
(compare code units left to right; a proper prefix sorts first). -/
def strLe : Str → Str → Bool
  | [], _ => true
  | _ :: _, [] => false
  | a :: as, b :: bs => if a = b then strLe as bs else decide (a < b)

/-- JavaScript object lookup `obj[key]` over an insertion-ordered assoc list. -/
def alookup {κ α : Type} [DecidableEq κ] : List (κ × α) → κ → Option α
  | [], _ => none
  | (k, v) :: rest, key => if k = key then some v else alookup rest key

/-- JavaScript object assignment `obj[key] = v`: updates in place if the key
exists, otherwise appends (new keys come last in insertion order). -/
def aset {κ α : Type} [DecidableEq κ] : List (κ × α) → κ → α → List (κ × α)
  | [], key, v => [(key, v)]
  | (k, w) :: rest, key, v =>
    if k = key then (k, v) :: rest else (k, w) :: aset rest key v

/-- JavaScript `delete obj[key]`. -/
def aerase {κ α : Type} [DecidableEq κ] : List (κ × α) → κ → List (κ × α)
  | [], _ => []
  | (k, w) :: rest, key => if k = key then rest else (k, w) :: aerase rest key

/-- JavaScript `Object.keys(obj)` (insertion order). -/
def akeys {κ α : Type} (l : List (κ × α)) : List κ := l.map Prod.fst

/-! ### Access-mode and vocabulary constants

Modelled from the spec: `src/modes.js` is not under `src/`; its constants are
reconstructed from the spec's AccessMode set, from `solid-namespace` URIs
visible in the tests (`test/unit` / `src/unnamed`), and from how
`permission-set.js` consumes them (`acl.ACCESS_TO`, `acl.DEFAULT`,
`acl.EVERYONE`, `acl.INHERIT`, `acl.ALL_MODES`). -/

def READ : Str := "http://www.w3.org/ns/auth/acl#Read".data

def WRITE : Str := "http://www.w3.org/ns/auth/acl#Write".data

def APPEND : Str := "http://www.w3.org/ns/auth/acl#Append".data

def CONTROL : Str := "http://www.w3.org/ns/auth/acl#Control".data

/-- The public / "everyone" agent class (`foaf:Agent`). -/
def EVERYONE : Str := "http://xmlns.com/foaf/0.1/Agent".data

/-- Access-type tag for a direct grant (`acl:accessTo`). -/
def ACCESS_TO : Str := "accessTo".data

/-- Access-type tag for an inherited grant (`acl:default`). -/
def DEFAULT : Str := "default".data

def INHERIT : Bool := true

def NOT_INHERIT : Bool := false

/-- Modelled from the spec: §4.2 says the synthesized Control permission gets
"modes = {Read, Write, Control} (all modes)". -/
def ALL_MODES : List Str := [READ, WRITE, CONTROL]

/-- Resource-type tag (`PermissionSet.RESOURCE`). -/
def RESOURCE : Str := "resource".data

/-- Resource-type tag (`PermissionSet.CONTAINER`). -/
def CONTAINER : Str := "container".data

/-- Agent index name (`AGENT_INDEX` in `permission-set.js`). -/
def AGENT_INDEX : Str := "agents".data

/-- Group index name (`GROUP_INDEX` in `permission-set.js`). -/
def GROUP_INDEX : Str := "groups".data

def DEFAULT_ACL_SUFFIX : Str := ".acl".data

/-! ### Permission

Modelled from the spec: `src/permission.js` is not under `src/` (only the
superseded `permission.js.old` and the test suites are). The entity and its
mode algebra follow spec §3/§4.1, the old variant where its code is present,
and the behaviour pinned by the tests in `src/unnamed/part_001`/`part_003`. -/

structure Permission where
  /-- URL of the resource this permission applies to (`[]` = unset). -/
  resourceUrl : Str := []
  /-- Should this permission be inherited (`acl:default`)? -/
  inherited : Bool := false
  /-- Individual agent webId (`acl:agent`); mutually exclusive with `group`. -/
  agent : Option Str := none
  /-- Group webId (`acl:agentGroup`/`acl:agentClass`); exclusive with `agent`. -/
  group : Option Str := none
  /-- The explicit access-mode set, in insertion order. -/
  accessModes : List Str := []
  /-- Allowed origins (`acl:origin`). -/
  originsAllowed : List Str := []
  /-- `mailto:` aliases for the agent. -/
  mailTo : List Str := []
  /-- Is this permission implied (excluded from serialization)? -/
  virtual : Bool := false
deriving DecidableEq, Inhabited

namespace Permission

/-- `new Permission(resourceUrl, inherited)`. -/
def make (resourceUrl : Str := []) (inherited : Bool := false) : Permission :=
  { resourceUrl := resourceUrl, inherited := inherited }

/-- Either `acl:accessTo` ('accessTo') or `acl:default` ('default'). -/
def accessType (p : Permission) : Str :=
  if p.inherited then DEFAULT else ACCESS_TO

/-- `webId()`: the agent's webId if set, otherwise the group's (`agent || group`). -/
def webId (p : Permission) : Option Str :=
  match p.agent with
  | some a => some a
  | none => p.group

/-- Adds a single mode to the explicit set (idempotent). -/
def addModeSingle (p : Permission) (mode : Str) : Permission :=
  if mode ∈ p.accessModes then p
  else { p with accessModes := p.accessModes ++ [mode] }

/-- `addMode(mode|mode[])`: inserts each mode into the explicit mode set. -/
def addMode (p : Permission) (modes : List Str) : Permission :=
  modes.foldl addModeSingle p

/-- Removes a single mode from the explicit set if present; no cascading. -/
def removeModeSingle (p : Permission) (mode : Str) : Permission :=
  { p with accessModes := p.accessModes.filter (fun m => decide (m ≠ mode)) }

/-- `removeMode(mode|mode[])`. -/
def removeMode (p : Permission) (modes : List Str) : Permission :=
  modes.foldl removeModeSingle p

/-- `allowsMode(mode)`: true iff the mode is in the explicit set, or the mode
is Append and Write is in the explicit set (Write implies Append at query
time; the implication is never stored). -/
def allowsMode (p : Permission) (mode : Str) : Bool :=
  decide (mode ∈ p.accessModes) ||
    (decide (mode = APPEND) && decide (WRITE ∈ p.accessModes))

def allowsRead (p : Permission) : Bool := p.allowsMode READ

def allowsWrite (p : Permission) : Bool := p.allowsMode WRITE

def allowsAppend (p : Permission) : Bool := p.allowsMode APPEND

def allowsControl (p : Permission) : Bool := p.allowsMode CONTROL

/-- Does this permission grant access to requests from the given origin? -/
def allowsOrigin (p : Permission) (origin : Str) : Bool :=
  decide (origin ∈ p.originsAllowed)

/-- Adds a single allowed origin (idempotent). -/
def addOriginSingle (p : Permission) (origin : Str) : Permission :=
  if origin ∈ p.originsAllowed then p
  else { p with originsAllowed := p.originsAllowed ++ [origin] }

/-- `addOrigin(origin|origin[])`. -/
def addOrigin (p : Permission) (origins : List Str) : Permission :=
  origins.foldl addOriginSingle p

/-- Records a `mailto:` alias. -/
def addMailTo (p : Permission) (m : Str) : Permission :=
  { p with mailTo := p.mailTo ++ [m] }

/-- A permission with no access modes left is empty (and gets removed from
its owning set). -/
def isEmpty (p : Permission) : Bool := p.accessModes.isEmpty

/-- Is this permission for the public (`acl:agentClass foaf:Agent`)? -/
def isPublic (p : Permission) : Bool := decide (p.group = some EVERYONE)

/-- Is this permission for a group (vs an individual agent)? -/
def isGroup (p : Permission) : Bool := p.group.isSome

/-- Valid permissions have a resource, an agent-or-group, and some mode. -/
def isValid (p : Permission) : Bool :=
  !p.resourceUrl.isEmpty && (p.webId).isSome && !p.accessModes.isEmpty

/-- `setPublic()`: make this a public (Everyone) permission. -/
def setPublic (p : Permission) : Permission :=
  { p with group := some EVERYONE }

/-- `setGroup(groupId)`: fails (spec §3: `InvalidStateError`) when an
individual agent is already set; the failing call leaves the permission
unchanged (an `Except.error` result produces no updated permission). -/
def setGroup (p : Permission) (groupId : Str) : Except Str Permission :=
  if p.agent.isSome then
    Except.error "Cannot set group, permission already has an agent set".data
  else Except.ok { p with group := some groupId }

/-- `setAgent(agentId)`: setting the well-known everyone identifier is
equivalent to `setPublic()`; otherwise fails (spec §3: `InvalidStateError`)
when a group is already set; `mailto:` ids are routed to alias storage. -/
def setAgent (p : Permission) (agentId : Str) : Except Str Permission :=
  if agentId = EVERYONE then Except.ok p.setPublic
  else if p.group.isSome then
    Except.error "Cannot set agent, permission already has a group set".data
  else if ("mailto:".data).isPrefixOf agentId then Except.ok (p.addMailTo agentId)
  else Except.ok { p with agent := some agentId }

/-- `clone()`: a deep value copy (the pure model's values already copy). -/
def clone (p : Permission) : Permission := p

/-- `mergeWith(other)`: union the mode sets and origin sets, keeping
insertion order. -/
def mergeWith (p other : Permission) : Permission :=
  (p.addMode other.accessModes).addOrigin other.originsAllowed

/-- `hashFragment()` / `hashFragmentFor()`: the identity key of a permission,
a deterministic function of (agent-or-group webId, resourceUrl); calling it
on a permission missing either piece throws. -/
def hashFragment (p : Permission) : Option (Str × Str) :=
  match p.webId with
  | none => none
  | some w => if p.resourceUrl.isEmpty then none else some (w, p.resourceUrl)

end Permission

/-! ### GroupListing

Modelled from the spec: `src/group-listing.js` is not under `src/`. Per
§3/§4.4 a listing is a cached remote membership document; `loadFrom` invokes
the injected fetch capability and returns the listing or a sentinel absence
value on failure, never throwing past that boundary. The fetch capability is
modelled as the function `Str → Option GroupListing` (fetch + member
extraction fused, per the §6 collaborator contract). -/

structure GroupListing where
  uri : Str := []
  members : List Str := []
deriving DecidableEq, Inhabited

namespace GroupListing

/-- Pure set-membership test against the cached member list. -/
def hasMember (g : GroupListing) (agentId : Str) : Bool :=
  decide (agentId ∈ g.members)

/-- Modelled from the spec: fetch the membership document for `uri`;
`none` on failure. -/
def loadFrom (uri : Str) (fetchGraph : Str → Option GroupListing) :
    Option GroupListing :=
  fetchGraph uri

end GroupListing

/-- Default `aclUrlFor()`: `.acl` resources are their own ACLs, everything
else appends the suffix (from `defaultAclUrlFor` in `permission-set.js`). -/
def defaultIsAcl (uri : Str) : Bool := DEFAULT_ACL_SUFFIX.isSuffixOf uri

def defaultAclUrlFor (uri : Str) : Str :=
  if defaultIsAcl uri then uri else uri ++ DEFAULT_ACL_SUFFIX

/-! ### PermissionSet (from `src/src/permission-set.js`)

The three-level indices (`permsBy.agents` / `permsBy.groups`) map
webId → accessType → resourceUrl to a *reference* to a `Permission`
object stored on the `objs` heap; the `permissions` map does the same for
identity keys. This mirrors the JavaScript objects, which all point at
shared `Permission` instances. -/

/-- resourceUrl → Permission reference. -/
abbrev ResIndex := List (Str × Ref)

/-- accessType → resourceUrl → Permission reference. -/
abbrev TypeIndex := List (Str × ResIndex)

/-- webId → accessType → resourceUrl → Permission reference. -/
abbrev AgentIndex := List (Str × TypeIndex)

/-- Options passed into `checkAccess()` / `loadGroups()`; `fetchGraph` is the
injected fetch capability (§6 collaborator contract) and `rdf` the presence
of an injected RDF library. -/
structure CheckOptions where
  fetchGraph : Option (Str → Option GroupListing) := none
  rdf : Bool := false

structure PermissionSet where
  /-- URL of the resource these permissions apply to (`[]` = unset). -/
  resourceUrl : Str := []
  /-- URL of the corresponding ACL resource. -/
  aclUrl : Str := []
  /-- Either 'resource' or 'container'. -/
  resourceType : Str := RESOURCE
  /-- Enforce the strict-origin policy? -/
  strictOrigin : Bool := false
  /-- The request's `Origin:` header (`[]` = unset, falsy). -/
  origin : Str := []
  /-- The request host (`[]` = unset). -/
  host : Str := []
  /-- Was an RDF library injected (`options.rdf`)? -/
  rdfPresent : Bool := false
  /-- The object heap holding every `Permission` this set refers to. -/
  objs : List Permission := []
  /-- Identity key (webId, resourceUrl) → reference (`this.permissions`). -/
  permissions : List ((Str × Str) × Ref) := []
  /-- `this.permsBy.agents`. -/
  agentsIdx : AgentIndex := []
  /-- `this.permsBy.groups` (also holds Public / EVERYONE permissions). -/
  groupsIdx : AgentIndex := []
  /-- Cache of loaded `GroupListing`s by uri (`this.groups`). -/
  groups : List (Str × GroupListing) := []
  /-- Derives the ACL url of a resource (injectable, defaulted). -/
  aclUrlFor : Str → Str := defaultAclUrlFor
  /-- Tests whether a uri is an ACL resource (injectable, defaulted). -/
  isAcl : Str → Bool := defaultIsAcl

/-- `new PermissionSet(resourceUrl, aclUrl, isContainer, options)`. -/
def mkPermissionSet (resourceUrl : Str := []) (aclUrl : Str := [])
    (isContainer : Bool := false) (strictOrigin : Bool := false)
    (origin : Str := []) (host : Str := []) (rdfPresent : Bool := false) :
    PermissionSet :=
  { resourceUrl := resourceUrl, aclUrl := aclUrl
    resourceType := if isContainer then CONTAINER else RESOURCE
    strictOrigin := strictOrigin, origin := origin, host := host
    rdfPresent := rdfPresent }

namespace PermissionSet

/-- Dereference a heap position. -/
def getObj (ps : PermissionSet) (r : Ref) : Permission :=
  ps.objs.getD r default

/-- In-place mutation of the object at a heap position: every map/index entry
referring to `r` observes the change (JavaScript aliasing). -/
def mutObj (ps : PermissionSet) (r : Ref) (f : Permission → Permission) :
    PermissionSet :=
  { ps with objs := ps.objs.set r (f (ps.getObj r)) }

/-- Allocate a fresh heap cell for a `Permission` object, returning its
reference. -/
def allocObj (ps : PermissionSet) (p : Permission) : PermissionSet × Ref :=
  ({ ps with objs := ps.objs ++ [p] }, ps.objs.length)

/-- Number of entries in the `permissions` map (the `count` getter). -/
def count (ps : PermissionSet) : Nat := ps.permissions.length

/-- `isEmpty()`. -/
def isEmpty (ps : PermissionSet) : Bool := decide (ps.count = 0)

/-- `isPermInherited()`: permissions added to a container set default to
inherited. -/
def isPermInherited (ps : PermissionSet) : Bool :=
  decide (ps.resourceType = CONTAINER)

/-- `allPermissions()`: the values of the `permissions` map. -/
def allPermissions (ps : PermissionSet) : List Permission :=
  ps.permissions.map (fun kv => ps.getObj kv.2)

/-- `addToAgentIndex` / `addToGroupIndex` (selected by `useGroups`): if the
slot `idx[webId][accessType][resourceUrl]` is taken, merge the incoming
permission into the object it references; otherwise store a reference to the
incoming object itself (`cell`, allocated on demand and shared between the two
index insertions of one `addSinglePermission` call). -/
def indexPerm (ps : PermissionSet) (useGroups : Bool) (p : Permission)
    (cell : Option Ref) : PermissionSet × Option Ref :=
  let w := (p.webId).getD []
  let t := p.accessType
  let u := p.resourceUrl
  let idx := if useGroups then ps.groupsIdx else ps.agentsIdx
  let tIdx := (alookup idx w).getD []
  let rIdx := (alookup tIdx t).getD []
  match alookup rIdx u with
  | some r => (ps.mutObj r (fun q => q.mergeWith p), cell)
  | none =>
    let (ps1, r) := match cell with
      | some r => (ps, r)
      | none => ps.allocObj p
    let idx1 := aset idx w (aset tIdx t (aset rIdx u r))
    if useGroups then ({ ps1 with groupsIdx := idx1 }, some r)
    else ({ ps1 with agentsIdx := idx1 }, some r)

/-- The part of `addSinglePermission` shared with the recursive call on the
synthesized Control permission: merge-or-insert into the `permissions` map,
then update the indices. (The synthesized permission has `virtual = true`, so
its own `addSinglePermission` call never re-enters the Control branch; this
definition is exactly that no-Control-branch path.) Returns the updated set
and the map cell used for the incoming object, if one was allocated. -/
def addSingleStep (ps : PermissionSet) (perm : Permission) :
    Except Str (PermissionSet × Option Ref × ((Str × Str) × Ref)) :=
  match perm.hashFragment with
  | none =>
    Except.error "Cannot call hashFragment() on an incomplete permission".data
  | some key =>
    match alookup ps.permissions key with
    | some r =>
      Except.ok (ps.mutObj r (fun q => q.mergeWith perm), none, (key, r))
    | none =>
      let (ps1, r) := ps.allocObj perm
      Except.ok ({ ps1 with permissions := ps1.permissions ++ [(key, r)] },
        some r, (key, r))

/-- Index the incoming permission in the agent index, and in the group index
when it is public or a group permission. -/
def addIndexes (ps : PermissionSet) (perm : Permission) (cell : Option Ref) :
    PermissionSet :=
  let (ps1, cell1) := ps.indexPerm false perm cell
  if perm.isPublic || perm.isGroup then (ps1.indexPerm true perm cell1).1
  else ps1

/-- `addSinglePermission` minus the Control branch — the path taken by the
recursive call on the synthesized (virtual) permission. -/
def addSingleBase (ps : PermissionSet) (perm : Permission) :
    Except Str PermissionSet := do
  let (ps1, cell, _) ← ps.addSingleStep perm
  Except.ok (ps1.addIndexes perm cell)

/-- The synthesized permission of `addControlPermissionsFor`: a clone of the
triggering permission with its resourceUrl rewritten to the policy-resource
URL, marked virtual, with all of `ALL_MODES` added. -/
def impliedControlPerm (ps : PermissionSet) (perm : Permission) : Permission :=
  let implied := perm.clone
  let implied := { implied with
    resourceUrl := ps.aclUrlFor perm.resourceUrl, virtual := true }
  implied.addMode ALL_MODES

/-- `addControlPermissionsFor(perm)`. -/
def addControlPermissionsFor (ps : PermissionSet) (perm : Permission) :
    Except Str PermissionSet :=
  ps.addSingleBase (ps.impliedControlPerm perm)

/-- `addSinglePermission(perm)`: merge-or-insert into the `permissions` map;
if the (non-virtual) permission allows Control, also add the implied virtual
permission for the ACL resource; finally index the incoming permission. -/
def addSinglePermission (ps : PermissionSet) (perm : Permission) :
    Except Str PermissionSet := do
  let (ps1, cell, _) ← ps.addSingleStep perm
  let ps2 ←
    if !perm.virtual && perm.allowsControl then ps1.addControlPermissionsFor perm
    else Except.ok ps1
  Except.ok (ps2.addIndexes perm cell)

/-- `addPermission(webId, accessMode, origin)`. (The JavaScript guard on a
missing `accessMode` argument is not modelled: an empty mode *array* is truthy
in JavaScript and passes that guard.) -/
def addPermission (ps : PermissionSet) (webId : Str) (accessModes : List Str)
    (origins : List Str := []) : Except Str PermissionSet := do
  if webId.isEmpty then
    Except.error "addPermission() requires a valid webId".data
  else if ps.resourceUrl.isEmpty then
    Except.error
      "Cannot add a permission to a PermissionSet with no resourceUrl".data
  else do
    let perm := Permission.make ps.resourceUrl ps.isPermInherited
    let perm ← perm.setAgent webId
    let perm := perm.addMode accessModes
    let perm := perm.addOrigin origins
    ps.addSinglePermission perm

/-- `addGroupPermission(webId, accessMode)`. -/
def addGroupPermission (ps : PermissionSet) (webId : Str)
    (accessModes : List Str) : Except Str PermissionSet := do
  if ps.resourceUrl.isEmpty then
    Except.error
      "Cannot add a permission to a PermissionSet with no resourceUrl".data
  else do
    let perm := Permission.make ps.resourceUrl ps.isPermInherited
    let perm ← perm.setGroup webId
    let perm := perm.addMode accessModes
    ps.addSinglePermission perm

/-- `permissionFor(webId, resourceUrl)`: map lookup by identity key
(the resourceUrl defaults to the set's own). -/
def permissionFor (ps : PermissionSet) (webId : Str) (resourceUrl : Str := []) :
    Option Ref :=
  if webId.isEmpty then none
  else
    let url := if resourceUrl.isEmpty then ps.resourceUrl else resourceUrl
    alookup ps.permissions (webId, url)

/-- `removeSinglePermission(perm)`: delete by identity key from the
`permissions` map. (The source deletes from the map only; the indices are not
touched.) -/
def removeSinglePermission (ps : PermissionSet) (perm : Permission) :
    Except Str PermissionSet :=
  match perm.hashFragment with
  | none =>
    Except.error "Cannot call hashFragment() on an incomplete permission".data
  | some key => Except.ok { ps with permissions := aerase ps.permissions key }

/-- `removePermission(webId, accessMode)`: locate the permission keyed by
(webId, this set's resourceUrl); no-op when absent; else remove the mode(s)
from the shared object, and delete it from the `permissions` map when its
mode set becomes empty. -/
def removePermission (ps : PermissionSet) (webId : Str) (accessModes : List Str) :
    Except Str PermissionSet :=
  match ps.permissionFor webId ps.resourceUrl with
  | none => Except.ok ps
  | some r =>
    let ps1 := ps.mutObj r (fun q => q.removeMode accessModes)
    let q := ps1.getObj r
    if q.isEmpty then ps1.removeSinglePermission q else Except.ok ps1

/-- `findPermByAgent(webId, resourceUrl, indexType)`: exact accessTo match
first; else exact default match; else scan the default keys in reverse sorted
order for the first string-prefix of the resourceUrl. (Only `AGENT_INDEX` and
`GROUP_INDEX` are ever passed as `indexType`.) -/
def findPermByAgent (ps : PermissionSet) (webId : Str) (resourceUrl : Str)
    (indexType : Str := AGENT_INDEX) : Option Ref :=
  let index := if indexType = GROUP_INDEX then ps.groupsIdx else ps.agentsIdx
  match alookup index webId with
  | none => none
  | some tIdx =>
    let accessToMatch :=
      (alookup tIdx ACCESS_TO).bind (fun rIdx => alookup rIdx resourceUrl)
    match accessToMatch with
    | some r => some r
    | none =>
      match alookup tIdx DEFAULT with
      | none => none
      | some dIdx =>
        match alookup dIdx resourceUrl with
        | some r => some r
        | none =>
          let containers := ((akeys dIdx).mergeSort strLe).reverse
          (containers.find? (fun c => c.isPrefixOf resourceUrl)).bind
            (fun c => alookup dIdx c)

/-- `findPublicPerm(resourceUrl)`. -/
def findPublicPerm (ps : PermissionSet) (resourceUrl : Str) : Option Ref :=
  ps.findPermByAgent EVERYONE resourceUrl GROUP_INDEX

/-- `allowsPublic(mode, resourceUrl)` (the resourceUrl falls back to the
set's own when unset). -/
def allowsPublic (ps : PermissionSet) (mode : Str) (resourceUrl : Str := []) :
    Bool :=
  let url := if resourceUrl.isEmpty then ps.resourceUrl else resourceUrl
  match ps.findPublicPerm url with
  | none => false
  | some r => (ps.getObj r).allowsMode mode

/-- `checkOrigin(permission)`: trusted when enforcement is off, no origin is
present, or the origin is the host; otherwise the permission must allow the
origin explicitly. -/
def checkOrigin (ps : PermissionSet) (p : Permission) : Bool :=
  if !ps.strictOrigin || ps.origin.isEmpty || decide (ps.origin = ps.host) then
    true
  else p.allowsOrigin ps.origin

/-- `checkAccessForAgent(resourceUrl, agentId, accessMode)`. -/
def checkAccessForAgent (ps : PermissionSet) (resourceUrl agentId mode : Str) :
    Bool :=
  match ps.findPermByAgent agentId resourceUrl with
  | none => false
  | some r => ps.checkOrigin (ps.getObj r) && (ps.getObj r).allowsMode mode

/-- `groupUris(excludePublic = true)`: the group-index keys, with the
Everyone key filtered out by default. -/
def groupUris (ps : PermissionSet) (excludePublic : Bool := true) : List Str :=
  let uris := akeys ps.groupsIdx
  if excludePublic then uris.filter (fun u => decide (u ≠ EVERYONE)) else uris

/-- `hasGroups()`: does the set hold any non-public group permission? -/
def hasGroups (ps : PermissionSet) : Bool :=
  decide ((ps.groupUris).length > 0)

/-- `groupsForMember(agentId)`: the loaded groups the agent is a member of. -/
def groupsForMember (ps : PermissionSet) (agentId : Str) : List Str :=
  (akeys ps.groups).filter
    (fun g => ((alookup ps.groups g).getD default).hasMember agentId)

/-- `loadGroups(options)`: rejects without a fetch capability, then without an
RDF library; otherwise fetches every group listing (a failed fetch is skipped,
not fatal) and caches the results. -/
def loadGroups (ps : PermissionSet) (options : CheckOptions) :
    Except Str PermissionSet :=
  match options.fetchGraph with
  | none => Except.error "Cannot load groups, fetchGraph() not supplied".data
  | some fetchGraph =>
    if !(options.rdf || ps.rdfPresent) then
      Except.error "Cannot load groups, rdf library not supplied".data
    else
      let loaded := (ps.groupUris).map
        (fun uri => GroupListing.loadFrom uri fetchGraph)
      Except.ok { ps with
        groups := loaded.foldl
          (fun acc g? => match g? with
            | some g => aset acc g.uri g
            | none => acc)
          ps.groups }

/-- `checkGroupAccess(resourceUrl, agentId, accessMode)`: does some loaded
group containing the agent pass the direct-agent check? -/
def checkGroupAccess (ps : PermissionSet) (resourceUrl agentId mode : Str) :
    Bool :=
  (ps.groupsForMember agentId).any
    (fun g => ps.checkAccessForAgent resourceUrl g mode)

/-- `checkAccess(resourceUrl, agentId, accessMode, options)`: public check,
then direct-agent check, then — only when group permissions exist — the
asynchronous group check. -/
def checkAccess (ps : PermissionSet) (resourceUrl agentId mode : Str)
    (options : CheckOptions := {}) : Except Str Bool :=
  if ps.allowsPublic mode resourceUrl then Except.ok true
  else if ps.checkAccessForAgent resourceUrl agentId mode then Except.ok true
  else if !ps.hasGroups then Except.ok false
  else do
    let ps1 ← ps.loadGroups options
    Except.ok (ps1.checkGroupAccess resourceUrl agentId mode)

/-- Modelled from the spec: §4.5 — `serialize()` collects the statements of
the set's permissions, and a virtual or invalid permission contributes none
(the filtering lives in `permission.js`'s `rdfStatements`, which is not under
`src/`). This is the list of permissions that contribute to `serialize()`
output. -/
def serializedPermissions (ps : PermissionSet) : List Permission :=
  (ps.allPermissions).filter (fun p => !p.virtual && p.isValid)

end PermissionSet

/-! ### Auxiliary definitions used by the theorem statements -/

/-- Three-level index lookup `idx[w][t][u]`. -/
def lookup3 (idx : AgentIndex) (w t u : Str) : Option Ref :=
  (alookup idx w).bind (fun tIdx => (alookup tIdx t).bind (fun rIdx => alookup rIdx u))

/-- All references stored in a three-level index. -/
def idxRefs (idx : AgentIndex) : List Ref :=
  idx.foldr (fun wkv acc =>
    wkv.2.foldr (fun tkv acc2 => tkv.2.map Prod.snd ++ acc2) acc) []

/-- Well-formedness: every reference stored in the map or the indices points
into the object heap. (Holds for every set reachable by the API; stated as a
decidable hypothesis for set-polymorphic theorems.) -/
def PermissionSet.refsBounded (ps : PermissionSet) : Bool :=
  (ps.permissions.map Prod.snd ++ idxRefs ps.agentsIdx ++ idxRefs ps.groupsIdx).all
    (fun r => decide (r < ps.objs.length))

/-- Well-formedness: each `permissions` entry's key equals the identity key of
the object it references. (Holds for every set reachable by the API.) -/
def PermissionSet.keysConsistent (ps : PermissionSet) : Bool :=
  ps.permissions.all (fun kv =>
    decide ((ps.getObj kv.2).webId = some kv.1.1) &&
      decide ((ps.getObj kv.2).resourceUrl = kv.1.2))

/-- Replace only the origin-enforcement configuration of a set, leaving the
permissions, heap, indices and everything else untouched. -/
def PermissionSet.withOriginConfig (ps : PermissionSet) (strict : Bool)
    (origin host : Str) : PermissionSet :=
  { ps with strictOrigin := strict, origin := origin, host := host }

end SolidPermissions

deriving instance DecidableEq for Except

/-! ## Theorems -/

namespace SolidPermissions

namespace Permission

theorem mem_addModeSingle {p : Permission} {m x : Str} :
    x ∈ (p.addModeSingle m).accessModes ↔ x ∈ p.accessModes ∨ x = m := by
  by_cases h : m ∈ p.accessModes
  · simp only [addModeSingle, if_pos h]
    exact ⟨Or.inl, fun hx => hx.elim id (fun he => he ▸ h)⟩
  · simp only [addModeSingle, if_neg h]
    simp [List.mem_append]

theorem mem_addMode {p : Permission} {ms : List Str} {x : Str} :
    x ∈ (p.addMode ms).accessModes ↔ x ∈ p.accessModes ∨ x ∈ ms := by
  induction ms generalizing p with
  | nil => simp [addMode]
  | cons m rest ih =>
    show x ∈ ((p.addModeSingle m).addMode rest).accessModes ↔ _
    rw [ih, mem_addModeSingle]
    simp [List.mem_cons]
    tauto

theorem mem_removeModeSingle {p : Permission} {m x : Str} :
    x ∈ (p.removeModeSingle m).accessModes ↔ x ∈ p.accessModes ∧ x ≠ m := by
  simp [removeModeSingle, List.mem_filter]

theorem mem_removeMode {p : Permission} {ms : List Str} {x : Str} :
    x ∈ (p.removeMode ms).accessModes ↔ x ∈ p.accessModes ∧ x ∉ ms := by
  induction ms generalizing p with
  | nil => simp [removeMode]
  | cons m rest ih =>
    show x ∈ ((p.removeModeSingle m).removeMode rest).accessModes ↔ _
    rw [ih, mem_removeModeSingle]
    simp [List.mem_cons]
    tauto

theorem allowsMode_iff {p : Permission} {m : Str} :
    p.allowsMode m = true ↔
      m ∈ p.accessModes ∨ (m = APPEND ∧ WRITE ∈ p.accessModes) := by
  simp [allowsMode]

theorem allowsMode_eq_false {p : Permission} {m : Str} :
    p.allowsMode m = false ↔
      ¬(m ∈ p.accessModes ∨ (m = APPEND ∧ WRITE ∈ p.accessModes)) := by
  rw [← allowsMode_iff]
  cases p.allowsMode m <;> simp

theorem WRITE_ne_APPEND : WRITE ≠ APPEND := by decide

theorem APPEND_ne_WRITE : APPEND ≠ WRITE := by decide

theorem CONTROL_ne_APPEND : CONTROL ≠ APPEND := by decide

/-- C3: `allowsMode(m)` holds iff `m` is in the explicit mode set or `m` is
Append with Write in the explicit set; adding Write then removing Append
leaves both `allowsWrite()` and `allowsAppend()` true; a further
`removeMode(Write)` makes `allowsAppend()` false (here unconditionally, since
the sequence removed any explicit Append as well — stronger than the claim's
"unless Append was also explicitly added"); `addMode(Append)` never changes
`allowsWrite()`, and `removeMode(Write)` on a permission with Append-only
added leaves `allowsAppend()` true. -/
theorem C3_mode_algebra (p : Permission) (hW : WRITE ∉ p.accessModes) :
    (∀ m : Str, p.allowsMode m = true ↔
        m ∈ p.accessModes ∨ (m = APPEND ∧ WRITE ∈ p.accessModes))
    ∧ ((p.addMode [WRITE]).removeMode [APPEND]).allowsWrite = true
    ∧ ((p.addMode [WRITE]).removeMode [APPEND]).allowsAppend = true
    ∧ (((p.addMode [WRITE]).removeMode [APPEND]).removeMode [WRITE]).allowsAppend
        = false
    ∧ ((p.addMode [APPEND]).allowsWrite = p.allowsWrite)
    ∧ (p.addMode [APPEND]).allowsWrite = false
    ∧ ((p.addMode [APPEND]).removeMode [WRITE]).allowsAppend = true := by
  have hwa := WRITE_ne_APPEND
  have haw := APPEND_ne_WRITE
  refine ⟨fun m => allowsMode_iff, ?_, ?_, ?_, ?_, ?_, ?_⟩
  · rw [allowsWrite, allowsMode_iff]
    rw [mem_removeMode, mem_addMode]
    simp [hwa]
  · rw [allowsAppend, allowsMode_iff]
    rw [mem_removeMode, mem_addMode, mem_removeMode, mem_addMode]
    simp [hwa]
  · rw [allowsAppend, allowsMode_eq_false]
    rw [mem_removeMode, mem_removeMode, mem_addMode,
      mem_removeMode, mem_removeMode, mem_addMode]
    simp [hwa, haw]
  · rw [allowsWrite]
    rw [Bool.eq_iff_iff, allowsMode_iff, allowsWrite, allowsMode_iff]
    rw [mem_addMode]
    simp [hwa, haw]
  · rw [allowsWrite, allowsMode_eq_false]
    rw [mem_addMode]
    simp [hwa, haw, hW]
  · rw [allowsAppend, allowsMode_iff]
    rw [mem_removeMode, mem_addMode]
    simp [haw]

/-- Witness for C3 at a concrete permission with no modes. -/
theorem C3_mode_algebra_witness :
    WRITE ∉ (Permission.make "https://x/f".data false).accessModes ∧
      (((Permission.make "https://x/f".data false).addMode [APPEND]).removeMode
        [WRITE]).allowsAppend = true :=
  ⟨by decide, (C3_mode_algebra (Permission.make "https://x/f".data false)
    (by decide)).2.2.2.2.2.2⟩

/-- C8: a permission names at most one principal kind — `setGroup` on a
permission with an individual agent fails (the spec's `InvalidStateError`,
modelled as an `Except.error` carrying the source's message; the failing call
produces no updated permission), `setAgent` with an ordinary id on a
permission with a group set fails likewise, and setting the well-known
everyone identifier as the agent makes the permission public: a group/Everyone
permission with no individual agent. -/
theorem C8_principal_exclusivity (p : Permission) (g a : Str) :
    (p.agent.isSome = true →
      p.setGroup g =
        Except.error "Cannot set group, permission already has an agent set".data)
    ∧ (p.group.isSome = true → a ≠ EVERYONE →
      p.setAgent a =
        Except.error "Cannot set agent, permission already has a group set".data)
    ∧ (p.agent = none →
      ∃ q, p.setAgent EVERYONE = Except.ok q ∧ q.isPublic = true ∧
        q.agent = none ∧ q.group = some EVERYONE) := by
  refine ⟨fun hA => ?_, fun hG hNe => ?_, fun hNoA => ?_⟩
  · simp [Permission.setGroup, hA]
  · simp [Permission.setAgent, hNe, hG]
  · refine ⟨p.setPublic, by simp [Permission.setAgent], ?_, ?_, ?_⟩
    · simp [Permission.isPublic, Permission.setPublic]
    · simp [Permission.setPublic, hNoA]
    · simp [Permission.setPublic]

/-- Witness for C8 at concrete permissions. -/
theorem C8_principal_exclusivity_witness :
    (({ agent := some "https://a/#me".data } : Permission).agent.isSome = true ∧
      ({ agent := some "https://a/#me".data } : Permission).setGroup
          "https://g/g1".data =
        Except.error "Cannot set group, permission already has an agent set".data)
    ∧ (({ group := some "https://g/g1".data } : Permission).group.isSome = true ∧
      "https://a/#me".data ≠ EVERYONE ∧
      ({ group := some "https://g/g1".data } : Permission).setAgent
          "https://a/#me".data =
        Except.error "Cannot set agent, permission already has a group set".data)
    ∧ (∃ q, ({} : Permission).setAgent EVERYONE = Except.ok q ∧
        q.isPublic = true ∧ q.agent = none ∧ q.group = some EVERYONE) :=
  ⟨⟨by decide, (C8_principal_exclusivity { agent := some "https://a/#me".data }
      "https://g/g1".data "https://a/#me".data).1 (by decide)⟩,
   ⟨by decide, by decide,
    (C8_principal_exclusivity { group := some "https://g/g1".data }
      "https://g/g1".data "https://a/#me".data).2.1 (by decide) (by decide)⟩,
   (C8_principal_exclusivity ({} : Permission) "https://g/g1".data
      "https://a/#me".data).2.2 rfl⟩

end Permission

/-! ### Permission projection lemmas: the mode/origin mutators only touch
their own field. -/

theorem addModeSingle_proj (p : Permission) (m : Str) :
    (p.addModeSingle m).agent = p.agent ∧ (p.addModeSingle m).group = p.group ∧
    (p.addModeSingle m).resourceUrl = p.resourceUrl ∧
    (p.addModeSingle m).inherited = p.inherited ∧
    (p.addModeSingle m).virtual = p.virtual ∧
    (p.addModeSingle m).originsAllowed = p.originsAllowed ∧
    (p.addModeSingle m).mailTo = p.mailTo := by
  unfold Permission.addModeSingle
  split <;> exact ⟨rfl, rfl, rfl, rfl, rfl, rfl, rfl⟩

theorem addMode_proj (p : Permission) (ms : List Str) :
    (p.addMode ms).agent = p.agent ∧ (p.addMode ms).group = p.group ∧
    (p.addMode ms).resourceUrl = p.resourceUrl ∧
    (p.addMode ms).inherited = p.inherited ∧
    (p.addMode ms).virtual = p.virtual ∧
    (p.addMode ms).originsAllowed = p.originsAllowed ∧
    (p.addMode ms).mailTo = p.mailTo := by
  induction ms generalizing p with
  | nil => exact ⟨rfl, rfl, rfl, rfl, rfl, rfl, rfl⟩
  | cons m rest ih =>
    have h1 := addModeSingle_proj p m
    have h2 := ih (p.addModeSingle m)
    exact ⟨h2.1.trans h1.1, h2.2.1.trans h1.2.1, h2.2.2.1.trans h1.2.2.1,
      h2.2.2.2.1.trans h1.2.2.2.1, h2.2.2.2.2.1.trans h1.2.2.2.2.1,
      h2.2.2.2.2.2.1.trans h1.2.2.2.2.2.1,
      h2.2.2.2.2.2.2.trans h1.2.2.2.2.2.2⟩

theorem removeModeSingle_proj (p : Permission) (m : Str) :
    (p.removeModeSingle m).agent = p.agent ∧
    (p.removeModeSingle m).group = p.group ∧
    (p.removeModeSingle m).resourceUrl = p.resourceUrl ∧
    (p.removeModeSingle m).inherited = p.inherited ∧
    (p.removeModeSingle m).virtual = p.virtual ∧
    (p.removeModeSingle m).originsAllowed = p.originsAllowed ∧
    (p.removeModeSingle m).mailTo = p.mailTo :=
  ⟨rfl, rfl, rfl, rfl, rfl, rfl, rfl⟩

theorem removeMode_proj (p : Permission) (ms : List Str) :
    (p.removeMode ms).agent = p.agent ∧ (p.removeMode ms).group = p.group ∧
    (p.removeMode ms).resourceUrl = p.resourceUrl ∧
    (p.removeMode ms).inherited = p.inherited ∧
    (p.removeMode ms).virtual = p.virtual ∧
    (p.removeMode ms).originsAllowed = p.originsAllowed ∧
    (p.removeMode ms).mailTo = p.mailTo := by
  induction ms generalizing p with
  | nil => exact ⟨rfl, rfl, rfl, rfl, rfl, rfl, rfl⟩
  | cons m rest ih =>
    have h1 := removeModeSingle_proj p m
    have h2 := ih (p.removeModeSingle m)
    exact ⟨h2.1.trans h1.1, h2.2.1.trans h1.2.1, h2.2.2.1.trans h1.2.2.1,
      h2.2.2.2.1.trans h1.2.2.2.1, h2.2.2.2.2.1.trans h1.2.2.2.2.1,
      h2.2.2.2.2.2.1.trans h1.2.2.2.2.2.1,
      h2.2.2.2.2.2.2.trans h1.2.2.2.2.2.2⟩

theorem addOriginSingle_proj (p : Permission) (o : Str) :
    (p.addOriginSingle o).agent = p.agent ∧
    (p.addOriginSingle o).group = p.group ∧
    (p.addOriginSingle o).resourceUrl = p.resourceUrl ∧
    (p.addOriginSingle o).inherited = p.inherited ∧
    (p.addOriginSingle o).virtual = p.virtual ∧
    (p.addOriginSingle o).accessModes = p.accessModes ∧
    (p.addOriginSingle o).mailTo = p.mailTo := by
  unfold Permission.addOriginSingle
  split <;> exact ⟨rfl, rfl, rfl, rfl, rfl, rfl, rfl⟩

theorem addOrigin_proj (p : Permission) (os : List Str) :
    (p.addOrigin os).agent = p.agent ∧ (p.addOrigin os).group = p.group ∧
    (p.addOrigin os).resourceUrl = p.resourceUrl ∧
    (p.addOrigin os).inherited = p.inherited ∧
    (p.addOrigin os).virtual = p.virtual ∧
    (p.addOrigin os).accessModes = p.accessModes ∧
    (p.addOrigin os).mailTo = p.mailTo := by
  induction os generalizing p with
  | nil => exact ⟨rfl, rfl, rfl, rfl, rfl, rfl, rfl⟩
  | cons o rest ih =>
    have h1 := addOriginSingle_proj p o
    have h2 := ih (p.addOriginSingle o)
    exact ⟨h2.1.trans h1.1, h2.2.1.trans h1.2.1, h2.2.2.1.trans h1.2.2.1,
      h2.2.2.2.1.trans h1.2.2.2.1, h2.2.2.2.2.1.trans h1.2.2.2.2.1,
      h2.2.2.2.2.2.1.trans h1.2.2.2.2.2.1,
      h2.2.2.2.2.2.2.trans h1.2.2.2.2.2.2⟩

theorem mergeWith_proj (p q : Permission) :
    (p.mergeWith q).agent = p.agent ∧ (p.mergeWith q).group = p.group ∧
    (p.mergeWith q).resourceUrl = p.resourceUrl ∧
    (p.mergeWith q).inherited = p.inherited ∧
    (p.mergeWith q).virtual = p.virtual := by
  have h1 := addMode_proj p q.accessModes
  have h2 := addOrigin_proj (p.addMode q.accessModes) q.originsAllowed
  exact ⟨h2.1.trans h1.1, h2.2.1.trans h1.2.1, h2.2.2.1.trans h1.2.2.1,
    h2.2.2.2.1.trans h1.2.2.2.1, h2.2.2.2.2.1.trans h1.2.2.2.2.1⟩

theorem mem_mergeWith {p q : Permission} {x : Str} :
    x ∈ (p.mergeWith q).accessModes ↔
      x ∈ p.accessModes ∨ x ∈ q.accessModes := by
  show x ∈ ((p.addMode q.accessModes).addOrigin q.originsAllowed).accessModes ↔ _
  rw [(addOrigin_proj (p.addMode q.accessModes) q.originsAllowed).2.2.2.2.2.1,
    Permission.mem_addMode]

theorem webId_mergeWith (p q : Permission) :
    (p.mergeWith q).webId = p.webId := by
  have h := mergeWith_proj p q
  simp only [Permission.webId, h.1, h.2.1]

theorem webId_removeMode (p : Permission) (ms : List Str) :
    (p.removeMode ms).webId = p.webId := by
  have h := removeMode_proj p ms
  simp only [Permission.webId, h.1, h.2.1]

/-! ### Order and association-list lemmas -/

theorem strLe_refl (a : Str) : strLe a a = true := by
  induction a with
  | nil => rfl
  | cons x xs ih => simp [strLe, ih]

theorem strLe_trans :
    ∀ a b c : Str, strLe a b = true → strLe b c = true → strLe a c = true
  | [], _, _, _, _ => rfl
  | _ :: _, [], _, h, _ => by simp [strLe] at h
  | _ :: _, _ :: _, [], _, h => by simp [strLe] at h
  | x :: xs, y :: ys, z :: zs, h1, h2 => by
    simp only [strLe] at h1 h2 ⊢
    by_cases hxy : x = y
    · subst hxy
      by_cases hyz : x = z
      · subst hyz
        simp only [if_pos rfl] at h1 h2 ⊢
        exact strLe_trans xs ys zs h1 h2
      · simpa [hyz] using h2
    · by_cases hyz : y = z
      · subst hyz
        simpa [hxy] using h1
      · simp only [if_neg hxy] at h1
        simp only [if_neg hyz] at h2
        have hlt : x < z := lt_trans (of_decide_eq_true h1) (of_decide_eq_true h2)
        simp [ne_of_lt hlt, hlt]

theorem strLe_total : ∀ a b : Str, (strLe a b || strLe b a) = true
  | [], _ => by simp [strLe]
  | _ :: _, [] => by simp [strLe]
  | x :: xs, y :: ys => by
    simp only [strLe]
    by_cases hxy : x = y
    · subst hxy
      simp only [if_pos rfl]
      exact strLe_total xs ys
    · have hyx : y ≠ x := Ne.symm hxy
      rcases lt_or_gt_of_ne hxy with h | h
      · simp [hxy, hyx, h]
      · simp [hxy, hyx, h, not_lt_of_gt h]

/-- In a list sorted in descending order, `find?` returns a maximum among the
elements satisfying the predicate. -/
theorem find_desc_max {l : List Str} {p : Str → Bool} {k : Str}
    (hl : l.Pairwise (fun a b => strLe b a = true))
    (h : l.find? p = some k) :
    ∀ x ∈ l, p x = true → strLe x k = true := by
  induction l with
  | nil => simp at h
  | cons a t ih =>
    rcases List.pairwise_cons.mp hl with ⟨ha, ht⟩
    by_cases hpa : p a = true
    · rw [List.find?_cons_of_pos _ hpa] at h
      obtain rfl : a = k := by injection h
      intro x hx hpx
      rcases List.mem_cons.mp hx with rfl | hxt
      · exact strLe_refl x
      · exact ha x hxt
    · rw [List.find?_cons_of_neg _ (by simpa using hpa)] at h
      intro x hx hpx
      rcases List.mem_cons.mp hx with rfl | hxt
      · exact absurd hpx hpa
      · exact ih ht h x hxt hpx

theorem getD_set_self {α : Type} :
    ∀ (l : List α) (n : Nat) (v d : α), n < l.length → (l.set n v).getD n d = v
  | [], n, _, _, h => absurd h (by simp)
  | _ :: _, 0, _, _, _ => rfl
  | _ :: xs, n + 1, v, d, h =>
    getD_set_self xs n v d (Nat.lt_of_succ_lt_succ (by simpa using h))

theorem getD_set_ne {α : Type} :
    ∀ (l : List α) (n m : Nat) (v d : α), n ≠ m →
      (l.set n v).getD m d = l.getD m d
  | [], _, _, _, _, _ => rfl
  | _ :: _, 0, 0, _, _, h => absurd rfl h
  | _ :: _, 0, _ + 1, _, _, _ => rfl
  | _ :: _, _ + 1, 0, _, _, _ => rfl
  | _ :: xs, n + 1, m + 1, v, d, h =>
    getD_set_ne xs n m v d (fun he => h (by rw [he]))

theorem getD_append_left {α : Type} :
    ∀ (l l2 : List α) (n : Nat) (d : α), n < l.length →
      (l ++ l2).getD n d = l.getD n d
  | [], _, n, _, h => absurd h (by simp)
  | _ :: _, _, 0, _, _ => rfl
  | _ :: xs, l2, n + 1, d, h =>
    getD_append_left xs l2 n d (Nat.lt_of_succ_lt_succ (by simpa using h))

theorem getD_append_self {α : Type} :
    ∀ (l : List α) (p d : α), (l ++ [p]).getD l.length d = p
  | [], _, _ => rfl
  | _ :: xs, p, d => getD_append_self xs p d

theorem alookup_aset_self {κ α : Type} [DecidableEq κ] :
    ∀ (l : List (κ × α)) (k : κ) (v : α), alookup (aset l k v) k = some v
  | [], k, v => by simp [aset, alookup]
  | (k0, v0) :: rest, k, v => by
    by_cases hk : k0 = k
    · simp [aset, hk, alookup]
    · simp only [aset, if_neg hk, alookup, if_neg hk]
      exact alookup_aset_self rest k v

theorem alookup_aset_ne {κ α : Type} [DecidableEq κ] :
    ∀ (l : List (κ × α)) (k k' : κ) (v : α), k' ≠ k →
      alookup (aset l k v) k' = alookup l k'
  | [], k, k', v, h => by
    have hne : ¬k = k' := fun he => h he.symm
    simp [aset, alookup, hne]
  | (k0, v0) :: rest, k, k', v, h => by
    by_cases hk : k0 = k
    · subst hk
      have hne : ¬k0 = k' := fun he => h he.symm
      simp [aset, alookup, hne]
    · simp only [aset, if_neg hk, alookup]
      by_cases hk' : k0 = k'
      · simp [hk']
      · simp only [if_neg hk']
        exact alookup_aset_ne rest k k' v h

theorem alookup_append {κ α : Type} [DecidableEq κ] :
    ∀ (l l2 : List (κ × α)) (k : κ),
      alookup (l ++ l2) k =
        (match alookup l k with
          | some v => some v
          | none => alookup l2 k)
  | [], _, _ => by simp [alookup]
  | (k0, v0) :: rest, l2, k => by
    by_cases hk : k0 = k
    · simp [alookup, hk]
    · simp only [List.cons_append, alookup, if_neg hk]
      exact alookup_append rest l2 k

theorem mem_aerase_of_mem {κ α : Type} [DecidableEq κ] :
    ∀ {l : List (κ × α)} {k k' : κ} {v : α}, (k', v) ∈ l → k' ≠ k →
      (k', v) ∈ aerase l k
  | [], _, _, _, h, _ => absurd h (by simp)
  | (k0, v0) :: rest, k, k', v, h, hne => by
    rcases List.mem_cons.mp h with heq | hmem
    · have hk0 : k0 ≠ k := by
        rw [show k0 = k' from (Prod.mk.injEq _ _ _ _ |>.mp heq.symm).1]
        exact hne
      rw [aerase, if_neg hk0]
      exact heq ▸ List.mem_cons_self _ _
    · by_cases hk0 : k0 = k
      · rw [aerase, if_pos hk0]
        exact hmem
      · rw [aerase, if_neg hk0]
        exact List.mem_cons_of_mem _ (mem_aerase_of_mem hmem hne)

theorem aerase_length_le {κ α : Type} [DecidableEq κ] :
    ∀ (l : List (κ × α)) (k : κ), (aerase l k).length ≤ l.length
  | [], _ => Nat.le_refl _
  | (k0, v0) :: rest, k => by
    by_cases hk : k0 = k
    · rw [aerase, if_pos hk]
      exact Nat.le_succ_of_le (Nat.le_refl _)
    · rw [aerase, if_neg hk]
      exact Nat.succ_le_succ (aerase_length_le rest k)

theorem length_le_aerase_succ {κ α : Type} [DecidableEq κ] :
    ∀ (l : List (κ × α)) (k : κ), l.length ≤ (aerase l k).length + 1
  | [], _ => Nat.le_succ _
  | (k0, v0) :: rest, k => by
    by_cases hk : k0 = k
    · rw [aerase, if_pos hk]
      simp
    · rw [aerase, if_neg hk]
      exact Nat.succ_le_succ (length_le_aerase_succ rest k)

theorem alookup_eq_none_of_not_mem_akeys {κ α : Type} [DecidableEq κ] :
    ∀ {l : List (κ × α)} {k : κ}, k ∉ akeys l → alookup l k = none
  | [], _, _ => rfl
  | (k0, v0) :: rest, k, h => by
    have h' : k ∉ k0 :: akeys rest := h
    have hk : k0 ≠ k := fun he => h' (he ▸ List.mem_cons_self _ _)
    rw [alookup, if_neg hk]
    exact alookup_eq_none_of_not_mem_akeys
      (fun hm => h' (List.mem_cons_of_mem _ hm))

theorem alookup_aerase_self_of_nodup {κ α : Type} [DecidableEq κ] :
    ∀ {l : List (κ × α)} {k : κ}, (akeys l).Nodup → alookup (aerase l k) k = none
  | [], _, _ => rfl
  | (k0, v0) :: rest, k, h => by
    have h' : (k0 :: akeys rest).Nodup := h
    rcases List.nodup_cons.mp h' with ⟨hk0, hrest⟩
    by_cases hk : k0 = k
    · rw [aerase, if_pos hk]
      subst hk
      exact alookup_eq_none_of_not_mem_akeys hk0
    · rw [aerase, if_neg hk, alookup, if_neg hk]
      exact alookup_aerase_self_of_nodup hrest

theorem alookup_mem {κ α : Type} [DecidableEq κ] :
    ∀ {l : List (κ × α)} {k : κ} {v : α}, alookup l k = some v → (k, v) ∈ l := by
  intro l
  induction l with
  | nil => intro k v h; simp [alookup] at h
  | cons kv rest ih =>
    intro k v h
    rcases kv with ⟨k0, v0⟩
    rw [alookup] at h
    by_cases hk : k0 = k
    · subst hk
      rw [if_pos rfl] at h
      obtain rfl : v0 = v := by injection h
      exact List.mem_cons_self _ _
    · rw [if_neg hk] at h
      exact List.mem_cons_of_mem _ (ih h)

theorem alookup_isSome_of_mem_akeys {κ α : Type} [DecidableEq κ] :
    ∀ {l : List (κ × α)} {k : κ}, k ∈ akeys l → ∃ v, alookup l k = some v := by
  intro l
  induction l with
  | nil => intro k h; simp [akeys] at h
  | cons kv rest ih =>
    intro k h
    by_cases hk : kv.1 = k
    · exact ⟨kv.2, by rw [alookup, if_pos hk]⟩
    · rcases List.mem_cons.mp h with heq | hmem
      · exact absurd heq.symm hk
      · obtain ⟨v, hv⟩ := ih hmem
        exact ⟨v, by rw [alookup, if_neg hk]; exact hv⟩

/-- The reverse-sorted container scan of `findPermByAgent` produces a
descending list with the same members as the key list. -/
theorem containers_pairwise (ks : List Str) :
    ((ks.mergeSort strLe).reverse).Pairwise (fun a b => strLe b a = true) := by
  rw [List.pairwise_reverse]
  exact List.sorted_mergeSort strLe_trans strLe_total ks

theorem mem_containers_iff {ks : List Str} {x : Str} :
    x ∈ (ks.mergeSort strLe).reverse ↔ x ∈ ks := by
  rw [List.mem_reverse]
  exact (List.mergeSort_perm ks strLe).mem_iff

namespace PermissionSet

/-- C2: the `findPermByAgent` lookup returns the direct (`accessTo`) grant for
the exact resource when one is indexed; otherwise the inherited (`default`)
grant for the exact resource; otherwise, among the `default` keys that are
string prefixes of the resource url, the permission keyed by the
lexicographically greatest such prefix (the reverse-sorted scan); otherwise no
permission (including when the agent has no index entry at all). -/
theorem C2_findPermByAgent_spec (ps : PermissionSet) (w r it : Str) :
    (alookup (if it = GROUP_INDEX then ps.groupsIdx else ps.agentsIdx) w = none →
      ps.findPermByAgent w r it = none)
    ∧ (∀ tIdx,
        alookup (if it = GROUP_INDEX then ps.groupsIdx else ps.agentsIdx) w =
          some tIdx →
        (∀ ref, (alookup tIdx ACCESS_TO).bind (fun rIdx => alookup rIdx r) =
            some ref →
          ps.findPermByAgent w r it = some ref)
        ∧ ((alookup tIdx ACCESS_TO).bind (fun rIdx => alookup rIdx r) = none →
          (alookup tIdx DEFAULT = none → ps.findPermByAgent w r it = none)
          ∧ (∀ dIdx, alookup tIdx DEFAULT = some dIdx →
            (∀ ref, alookup dIdx r = some ref →
              ps.findPermByAgent w r it = some ref)
            ∧ (alookup dIdx r = none →
              (∀ ref, ps.findPermByAgent w r it = some ref →
                ∃ c, c.isPrefixOf r = true ∧ alookup dIdx c = some ref ∧
                  ∀ c' ∈ akeys dIdx, c'.isPrefixOf r = true →
                    strLe c' c = true)
              ∧ ((∃ c ∈ akeys dIdx, c.isPrefixOf r = true) →
                ∃ ref, ps.findPermByAgent w r it = some ref)
              ∧ ((∀ c ∈ akeys dIdx, c.isPrefixOf r = false) →
                ps.findPermByAgent w r it = none))))) := by
  constructor
  · intro hNone
    simp [findPermByAgent, hNone]
  · intro tIdx hIdx
    constructor
    · intro ref hAcc
      simp [findPermByAgent, hIdx, hAcc]
    · intro hAccNone
      constructor
      · intro hDefNone
        simp [findPermByAgent, hIdx, hAccNone, hDefNone]
      · intro dIdx hDef
        constructor
        · intro ref hExact
          simp [findPermByAgent, hIdx, hAccNone, hDef, hExact]
        · intro hExactNone
          refine ⟨?_, ?_, ?_⟩
          · intro ref hFind
            simp only [findPermByAgent, hIdx, hAccNone, hDef, hExactNone] at hFind
            rw [Option.bind_eq_some] at hFind
            obtain ⟨c, hOpt, hlook⟩ := hFind
            refine ⟨c, by simpa using List.find?_some hOpt, hlook, ?_⟩
            intro c' hc' hpfx
            exact find_desc_max (containers_pairwise (akeys dIdx)) hOpt c'
              (mem_containers_iff.mpr hc') hpfx
          · rintro ⟨c, hc, hpfx⟩
            have hmem : c ∈ ((akeys dIdx).mergeSort strLe).reverse :=
              mem_containers_iff.mpr hc
            have hex : ∃ x ∈ ((akeys dIdx).mergeSort strLe).reverse,
                (fun c => c.isPrefixOf r) x = true := ⟨c, hmem, hpfx⟩
            rw [← List.find?_isSome] at hex
            rcases hOpt : ((akeys dIdx).mergeSort strLe).reverse.find?
                (fun c => c.isPrefixOf r) with _ | c0
            · rw [hOpt] at hex; simp at hex
            · have hc0 : c0 ∈ akeys dIdx :=
                mem_containers_iff.mp (List.mem_of_find?_eq_some hOpt)
              obtain ⟨v, hv⟩ := alookup_isSome_of_mem_akeys hc0
              refine ⟨v, ?_⟩
              simp [findPermByAgent, hIdx, hAccNone, hDef, hExactNone, hOpt, hv]
          · intro hAll
            have hOpt : ((akeys dIdx).mergeSort strLe).reverse.find?
                (fun c => c.isPrefixOf r) = none := by
              rw [List.find?_eq_none]
              intro x hx
              simp [hAll x (mem_containers_iff.mp hx)]
            simp [findPermByAgent, hIdx, hAccNone, hDef, hExactNone, hOpt]

/-- Witness for C2: a concrete agent index with two inherited container
grants, both prefixes of the queried resource, where the scan must return a
permission. -/
theorem C2_findPermByAgent_spec_witness :
    ∃ ref, ({ agentsIdx := [("a".data,
        [(DEFAULT, [("/d/".data, 0), ("/d/e/".data, 1)])])] } :
        PermissionSet).findPermByAgent "a".data "/d/e/f".data AGENT_INDEX =
      some ref :=
  ((((C2_findPermByAgent_spec
    ({ agentsIdx := [("a".data,
        [(DEFAULT, [("/d/".data, 0), ("/d/e/".data, 1)])])] } : PermissionSet)
    "a".data "/d/e/f".data AGENT_INDEX).2
    [(DEFAULT, [("/d/".data, 0), ("/d/e/".data, 1)])] (by decide)).2
    (by decide)).2 [("/d/".data, 0), ("/d/e/".data, 1)] (by decide)).2
    (by decide) |>.2.1 (by decide)

/-- C1: `checkAccess` evaluates its three stages in priority order and
resolves at the first stage that grants: a public grant resolves true for
every requester (the requester's own permissions are never consulted — the
result below holds for an arbitrary `a`); otherwise a direct-agent grant
(which includes the origin check) resolves true; otherwise, when the set has
no non-public group permissions, it resolves false for *every* options value,
including one with no fetch capability at all (so the fetch capability is
never invoked — with groups present that same options value would reject);
only otherwise does it load the group listings and test the requester's
groups. -/
theorem C1_checkAccess_stages (ps : PermissionSet) (r a m : Str)
    (opts : CheckOptions) :
    (ps.allowsPublic m r = true → ps.checkAccess r a m opts = Except.ok true)
    ∧ (ps.allowsPublic m r = false → ps.checkAccessForAgent r a m = true →
        ps.checkAccess r a m opts = Except.ok true)
    ∧ (ps.allowsPublic m r = false → ps.checkAccessForAgent r a m = false →
        ps.hasGroups = false →
        ∀ anyOpts : CheckOptions, ps.checkAccess r a m anyOpts = Except.ok false)
    ∧ (ps.allowsPublic m r = false → ps.checkAccessForAgent r a m = false →
        ps.hasGroups = true →
        ps.checkAccess r a m opts =
          (ps.loadGroups opts).map (fun ps1 => ps1.checkGroupAccess r a m)) := by
  refine ⟨fun h1 => ?_, fun h1 h2 => ?_, fun h1 h2 h3 anyOpts => ?_,
    fun h1 h2 h3 => ?_⟩
  · simp [checkAccess, h1]
  · simp [checkAccess, h1, h2]
  · simp [checkAccess, h1, h2, h3]
  · cases hl : ps.loadGroups opts with
    | error e =>
      simp [checkAccess, h1, h2, h3, hl, Except.map, Bind.bind, Except.bind]
    | ok ps1 =>
      simp [checkAccess, h1, h2, h3, hl, Except.map, Bind.bind, Except.bind]

/-- Witness for C1 at a concrete set: stage 3 (no groups) resolves false with
no fetch capability supplied. -/
theorem C1_checkAccess_stages_witness :
    ({ resourceUrl := "/d/f".data } : PermissionSet).allowsPublic WRITE
        "/d/f".data = false ∧
    ({ resourceUrl := "/d/f".data } : PermissionSet).checkAccessForAgent
        "/d/f".data "a".data WRITE = false ∧
    ({ resourceUrl := "/d/f".data } : PermissionSet).hasGroups = false ∧
    ({ resourceUrl := "/d/f".data } : PermissionSet).checkAccess "/d/f".data
        "a".data WRITE { fetchGraph := none } = Except.ok false :=
  ⟨by decide, by decide, by decide,
    (C1_checkAccess_stages ({ resourceUrl := "/d/f".data } : PermissionSet)
      "/d/f".data "a".data WRITE {}).2.2.1 (by decide) (by decide) (by decide)
      { fetchGraph := none }⟩

/-- C9: the public stage is independent of the origin configuration — when an
Everyone permission grants the mode, `checkAccess` resolves true under *any*
two strictOrigin/origin/host configurations (`allowsPublic` never invokes
`checkOrigin`); the direct-agent stage, by contrast, applies the origin
check: under strict-origin enforcement with an untrusted origin that the
found permission does not allow, `checkAccessForAgent` denies. -/
theorem C9_public_ignores_origin (ps : PermissionSet) (r a m o : Str)
    (opts : CheckOptions) (s1 s2 : Bool) (o1 h1 o2 h2 : Str) :
    (ps.allowsPublic m r = true →
      (ps.withOriginConfig s1 o1 h1).checkAccess r a m opts = Except.ok true ∧
      (ps.withOriginConfig s2 o2 h2).checkAccess r a m opts = Except.ok true)
    ∧ (ps.strictOrigin = true → ps.origin = o → o.isEmpty = false →
        decide (o = ps.host) = false →
        ∀ ref, ps.findPermByAgent a r AGENT_INDEX = some ref →
        (ps.getObj ref).allowsOrigin o = false →
        ps.checkAccessForAgent r a m = false) := by
  constructor
  · intro hPub
    have key : ∀ s : Bool, ∀ og hs : Str,
        (ps.withOriginConfig s og hs).checkAccess r a m opts = Except.ok true := by
      intro s og hs
      have hsame : (ps.withOriginConfig s og hs).allowsPublic m r =
          ps.allowsPublic m r := rfl
      simp [checkAccess, hsame, hPub]
    exact ⟨key s1 o1 h1, key s2 o2 h2⟩
  · intro hS hO hOne hOh ref hRef hAllow
    subst hO
    simp [checkAccessForAgent, hRef, checkOrigin, hS, hOne, hOh, hAllow]

/-- Witness for C9: a public Read grant resolves true both with origin
enforcement off and with an untrusted origin configured; a direct agent
permission that does not allow the configured origin is denied. -/
theorem C9_public_ignores_origin_witness :
    (({ resourceUrl := "/d/".data,
        objs := [(Permission.make "/d/".data).setPublic.addMode [READ]],
        groupsIdx := [(EVERYONE, [(ACCESS_TO, [("/d/".data, 0)])])] } :
        PermissionSet).allowsPublic READ "/d/".data = true ∧
      (({ resourceUrl := "/d/".data,
          objs := [(Permission.make "/d/".data).setPublic.addMode [READ]],
          groupsIdx := [(EVERYONE, [(ACCESS_TO, [("/d/".data, 0)])])] } :
          PermissionSet).withOriginConfig false [] []).checkAccess "/d/".data
          "a".data READ {} = Except.ok true ∧
      (({ resourceUrl := "/d/".data,
          objs := [(Permission.make "/d/".data).setPublic.addMode [READ]],
          groupsIdx := [(EVERYONE, [(ACCESS_TO, [("/d/".data, 0)])])] } :
          PermissionSet).withOriginConfig true "https://evil".data
          "https://host".data).checkAccess "/d/".data "a".data READ {} =
        Except.ok true)
    ∧ (({ resourceUrl := "/d/".data, strictOrigin := true,
          origin := "https://evil".data, host := "https://host".data,
          objs := [{ resourceUrl := "/d/".data, agent := some "a".data,
                     accessModes := [READ] }],
          agentsIdx := [("a".data, [(ACCESS_TO, [("/d/".data, 0)])])] } :
          PermissionSet).checkAccessForAgent "/d/".data "a".data READ = false) := by
  constructor
  · refine ⟨by decide, ?_⟩
    exact (C9_public_ignores_origin
      ({ resourceUrl := "/d/".data,
         objs := [(Permission.make "/d/".data).setPublic.addMode [READ]],
         groupsIdx := [(EVERYONE, [(ACCESS_TO, [("/d/".data, 0)])])] } :
        PermissionSet)
      "/d/".data "a".data READ "https://evil".data {} false true
      [] [] "https://evil".data "https://host".data).1 (by decide)
  · exact (C9_public_ignores_origin
      ({ resourceUrl := "/d/".data, strictOrigin := true,
         origin := "https://evil".data, host := "https://host".data,
         objs := [{ resourceUrl := "/d/".data, agent := some "a".data,
                    accessModes := [READ] }],
         agentsIdx := [("a".data, [(ACCESS_TO, [("/d/".data, 0)])])] } :
        PermissionSet)
      "/d/".data "a".data READ "https://evil".data {} false false
      [] [] [] []).2 rfl rfl (by decide) (by decide) 0 (by decide) (by decide)

/-- C7 counterexample: a set with a group permission, no public or direct
grant, a fetch capability supplied — but no RDF library configured — rejects
instead of resolving to a boolean, against the claim's "capability supplied
and succeeds ⇒ resolves" clause. -/
theorem C7_rdf_missing_cex :
    ((mkPermissionSet "/d/f".data).addGroupPermission "https://g/team".data
        [WRITE]).bind
      (fun ps1 => ps1.checkAccess "/d/f".data "a".data WRITE
        { fetchGraph := some (fun _ => none), rdf := false }) =
    Except.error "Cannot load groups, rdf library not supplied".data := by
  decide

/-- C7 (amended): `checkAccess` rejects only for configuration errors. When
the group stage is reached with no fetch capability it rejects with the fetch
configuration message (regardless of the RDF setting — that check comes
first); when the group stage is not reached it resolves to a boolean under
any options; when both the fetch capability and an RDF library are supplied
it resolves to a boolean; and an ordinary "no access" outcome resolves to
false rather than throwing. -/
theorem C7_checkAccess_errors (ps : PermissionSet) (r a m : Str)
    (opts : CheckOptions) :
    (ps.allowsPublic m r = false → ps.checkAccessForAgent r a m = false →
      ps.hasGroups = true → opts.fetchGraph = none →
      ps.checkAccess r a m opts =
        Except.error "Cannot load groups, fetchGraph() not supplied".data)
    ∧ (ps.allowsPublic m r = true ∨ ps.checkAccessForAgent r a m = true ∨
        ps.hasGroups = false →
      ∃ b, ps.checkAccess r a m opts = Except.ok b)
    ∧ (∀ f, opts.fetchGraph = some f → (opts.rdf || ps.rdfPresent) = true →
      ∃ b, ps.checkAccess r a m opts = Except.ok b)
    ∧ (ps.allowsPublic m r = false → ps.checkAccessForAgent r a m = false →
      ps.hasGroups = false → ps.checkAccess r a m opts = Except.ok false) := by
  refine ⟨fun h1 h2 h3 hf => ?_, fun h => ?_, fun f hf hrdf => ?_,
    fun h1 h2 h3 => ?_⟩
  · simp [checkAccess, h1, h2, h3, loadGroups, hf, Bind.bind, Except.bind]
  · rcases h with h1 | h2 | h3
    · exact ⟨true, by simp [checkAccess, h1]⟩
    · by_cases h1 : ps.allowsPublic m r
      · exact ⟨true, by simp [checkAccess, h1]⟩
      · exact ⟨true, by simp [checkAccess, h1, h2]⟩
    · by_cases h1 : ps.allowsPublic m r
      · exact ⟨true, by simp [checkAccess, h1]⟩
      · by_cases h2 : ps.checkAccessForAgent r a m
        · exact ⟨true, by simp [checkAccess, h1, h2]⟩
        · exact ⟨false, by simp [checkAccess, h1, h2, h3]⟩
  · by_cases h1 : ps.allowsPublic m r
    · exact ⟨true, by simp [checkAccess, h1]⟩
    · by_cases h2 : ps.checkAccessForAgent r a m
      · exact ⟨true, by simp [checkAccess, h1, h2]⟩
      · by_cases h3 : ps.hasGroups
        · rcases hl : ps.loadGroups opts with e | ps1
          · rw [loadGroups, hf] at hl
            simp [hrdf] at hl
          · exact ⟨ps1.checkGroupAccess r a m,
              by simp [checkAccess, h1, h2, h3, hl, Bind.bind, Except.bind]⟩
        · exact ⟨false, by simp [checkAccess, h1, h2, h3]⟩
  · simp [checkAccess, h1, h2, h3]

/-- Witness for C7: the fetch-missing rejection and the ordinary-denial false
at a concrete set holding one group permission. -/
theorem C7_checkAccess_errors_witness :
    ((((mkPermissionSet "/d/f".data).addGroupPermission "https://g/team".data
        [WRITE]).toOption.getD {}).allowsPublic WRITE "/d/f".data = false) ∧
    ((((mkPermissionSet "/d/f".data).addGroupPermission "https://g/team".data
        [WRITE]).toOption.getD {}).checkAccessForAgent "/d/f".data "a".data
        WRITE = false) ∧
    ((((mkPermissionSet "/d/f".data).addGroupPermission "https://g/team".data
        [WRITE]).toOption.getD {}).hasGroups = true) ∧
    ((((mkPermissionSet "/d/f".data).addGroupPermission "https://g/team".data
        [WRITE]).toOption.getD {}).checkAccess "/d/f".data "a".data WRITE
        { fetchGraph := none } =
      Except.error "Cannot load groups, fetchGraph() not supplied".data) ∧
    (∃ b, (mkPermissionSet "/d/f".data).checkAccess "/d/f".data "a".data WRITE
        {} = Except.ok b) :=
  ⟨by decide, by decide, by decide,
    (C7_checkAccess_errors (((mkPermissionSet "/d/f".data).addGroupPermission
        "https://g/team".data [WRITE]).toOption.getD {}) "/d/f".data "a".data
        WRITE { fetchGraph := none }).1 (by decide) (by decide) (by decide) rfl,
    (C7_checkAccess_errors (mkPermissionSet "/d/f".data) "/d/f".data "a".data
        WRITE {}).2.1 (Or.inr (Or.inr (by decide)))⟩

/-! ### Structural lemmas about the heap and the index updates -/

theorem mutObj_frame (ps : PermissionSet) (r : Ref) (f : Permission → Permission) :
    (ps.mutObj r f).permissions = ps.permissions ∧
    (ps.mutObj r f).agentsIdx = ps.agentsIdx ∧
    (ps.mutObj r f).groupsIdx = ps.groupsIdx ∧
    (ps.mutObj r f).resourceUrl = ps.resourceUrl ∧
    (ps.mutObj r f).objs.length = ps.objs.length := by
  refine ⟨rfl, rfl, rfl, rfl, ?_⟩
  simp [mutObj]

theorem getObj_mutObj_self (ps : PermissionSet) (r : Ref)
    (f : Permission → Permission) (h : r < ps.objs.length) :
    (ps.mutObj r f).getObj r = f (ps.getObj r) :=
  getD_set_self _ _ _ _ h

theorem getObj_mutObj_ne (ps : PermissionSet) (r r' : Ref)
    (f : Permission → Permission) (h : r ≠ r') :
    (ps.mutObj r f).getObj r' = ps.getObj r' :=
  getD_set_ne _ _ _ _ _ h

theorem allocObj_frame (ps : PermissionSet) (p : Permission) :
    ((ps.allocObj p).1).permissions = ps.permissions ∧
    ((ps.allocObj p).1).agentsIdx = ps.agentsIdx ∧
    ((ps.allocObj p).1).groupsIdx = ps.groupsIdx ∧
    ((ps.allocObj p).1).resourceUrl = ps.resourceUrl ∧
    ((ps.allocObj p).1).objs.length = ps.objs.length + 1 ∧
    (ps.allocObj p).2 = ps.objs.length :=
  ⟨rfl, rfl, rfl, rfl, by simp [allocObj], rfl⟩

theorem getObj_allocObj_new (ps : PermissionSet) (p : Permission) :
    ((ps.allocObj p).1).getObj ps.objs.length = p :=
  getD_append_self _ _ _

theorem getObj_allocObj_old (ps : PermissionSet) (p : Permission) (n : Ref)
    (h : n < ps.objs.length) : ((ps.allocObj p).1).getObj n = ps.getObj n :=
  getD_append_left _ _ _ _ h

theorem lookup3_of_getD (idx : AgentIndex) (w t u : Str) (r : Ref) :
    alookup ((alookup ((alookup idx w).getD []) t).getD []) u = some r →
    lookup3 idx w t u = some r := by
  intro h
  cases h1 : alookup idx w with
  | none =>
    rw [h1] at h
    simp [alookup] at h
  | some tIdx =>
    rw [h1, Option.getD_some] at h
    cases h2 : alookup tIdx t with
    | none =>
      rw [h2] at h
      simp [alookup] at h
    | some rIdx =>
      rw [h2, Option.getD_some] at h
      simp [lookup3, h1, h2, h]

theorem lookup3_aset_self (idx : AgentIndex) (w t u : Str) (r : Ref) :
    lookup3 (aset idx w (aset ((alookup idx w).getD []) t
      (aset ((alookup ((alookup idx w).getD []) t).getD []) u r))) w t u =
      some r := by
  simp [lookup3, alookup_aset_self]

theorem lookup3_aset_ne_w (idx : AgentIndex) (w w' t u : Str) (tIdx : TypeIndex)
    (h : w' ≠ w) :
    lookup3 (aset idx w tIdx) w' t u = lookup3 idx w' t u := by
  rw [lookup3, alookup_aset_ne _ _ _ _ h, lookup3]

theorem indexPerm_false_merge (ps : PermissionSet) (p : Permission)
    (cell : Option Ref) (r : Ref)
    (h : alookup ((alookup ((alookup ps.agentsIdx ((p.webId).getD [])).getD [])
      p.accessType).getD []) p.resourceUrl = some r) :
    ps.indexPerm false p cell = (ps.mutObj r (fun q => q.mergeWith p), cell) := by
  simp [indexPerm, h]

theorem indexPerm_true_merge (ps : PermissionSet) (p : Permission)
    (cell : Option Ref) (r : Ref)
    (h : alookup ((alookup ((alookup ps.groupsIdx ((p.webId).getD [])).getD [])
      p.accessType).getD []) p.resourceUrl = some r) :
    ps.indexPerm true p cell = (ps.mutObj r (fun q => q.mergeWith p), cell) := by
  simp [indexPerm, h]

theorem indexPerm_false_insert_cell (ps : PermissionSet) (p : Permission)
    (r : Ref)
    (h : alookup ((alookup ((alookup ps.agentsIdx ((p.webId).getD [])).getD [])
      p.accessType).getD []) p.resourceUrl = none) :
    ps.indexPerm false p (some r) =
      ({ ps with
          agentsIdx := aset ps.agentsIdx ((p.webId).getD [])
            (aset ((alookup ps.agentsIdx ((p.webId).getD [])).getD []) p.accessType
              (aset ((alookup ((alookup ps.agentsIdx ((p.webId).getD [])).getD [])
                p.accessType).getD []) p.resourceUrl r)) }, some r) := by
  simp [indexPerm, h]

theorem indexPerm_true_insert_cell (ps : PermissionSet) (p : Permission)
    (r : Ref)
    (h : alookup ((alookup ((alookup ps.groupsIdx ((p.webId).getD [])).getD [])
      p.accessType).getD []) p.resourceUrl = none) :
    ps.indexPerm true p (some r) =
      ({ ps with
          groupsIdx := aset ps.groupsIdx ((p.webId).getD [])
            (aset ((alookup ps.groupsIdx ((p.webId).getD [])).getD []) p.accessType
              (aset ((alookup ((alookup ps.groupsIdx ((p.webId).getD [])).getD [])
                p.accessType).getD []) p.resourceUrl r)) }, some r) := by
  simp [indexPerm, h]

theorem indexPerm_true_agentsIdx (ps : PermissionSet) (p : Permission)
    (cell : Option Ref) :
    ((ps.indexPerm true p cell).1).agentsIdx = ps.agentsIdx ∧
    ((ps.indexPerm true p cell).1).permissions = ps.permissions ∧
    ((ps.indexPerm true p cell).1).resourceUrl = ps.resourceUrl := by
  unfold indexPerm
  rcases h : alookup ((alookup ((alookup ps.groupsIdx ((p.webId).getD [])).getD [])
      p.accessType).getD []) p.resourceUrl with _ | r
  · cases cell <;> simp [h, allocObj]
  · simp [h, mutObj]

theorem indexPerm_false_frame (ps : PermissionSet) (p : Permission)
    (cell : Option Ref) :
    ((ps.indexPerm false p cell).1).groupsIdx = ps.groupsIdx ∧
    ((ps.indexPerm false p cell).1).permissions = ps.permissions ∧
    ((ps.indexPerm false p cell).1).resourceUrl = ps.resourceUrl := by
  unfold indexPerm
  rcases h : alookup ((alookup ((alookup ps.agentsIdx ((p.webId).getD [])).getD [])
      p.accessType).getD []) p.resourceUrl with _ | r
  · cases cell <;> simp [h, allocObj]
  · simp [h, mutObj]

theorem indexPerm_false_insert_nocell (ps : PermissionSet) (p : Permission)
    (h : alookup ((alookup ((alookup ps.agentsIdx ((p.webId).getD [])).getD [])
      p.accessType).getD []) p.resourceUrl = none) :
    ps.indexPerm false p none =
      ({ ps with
          objs := ps.objs ++ [p],
          agentsIdx := aset ps.agentsIdx ((p.webId).getD [])
            (aset ((alookup ps.agentsIdx ((p.webId).getD [])).getD []) p.accessType
              (aset ((alookup ((alookup ps.agentsIdx ((p.webId).getD [])).getD [])
                p.accessType).getD []) p.resourceUrl ps.objs.length)) },
        some ps.objs.length) := by
  simp [indexPerm, h, allocObj]

theorem indexPerm_true_insert_nocell (ps : PermissionSet) (p : Permission)
    (h : alookup ((alookup ((alookup ps.groupsIdx ((p.webId).getD [])).getD [])
      p.accessType).getD []) p.resourceUrl = none) :
    ps.indexPerm true p none =
      ({ ps with
          objs := ps.objs ++ [p],
          groupsIdx := aset ps.groupsIdx ((p.webId).getD [])
            (aset ((alookup ps.groupsIdx ((p.webId).getD [])).getD []) p.accessType
              (aset ((alookup ((alookup ps.groupsIdx ((p.webId).getD [])).getD [])
                p.accessType).getD []) p.resourceUrl ps.objs.length)) },
        some ps.objs.length) := by
  simp [indexPerm, h, allocObj]

theorem indexPerm_false_lookup_exists (ps : PermissionSet) (p : Permission)
    (cell : Option Ref) :
    ∃ r, lookup3 ((ps.indexPerm false p cell).1).agentsIdx ((p.webId).getD [])
      p.accessType p.resourceUrl = some r := by
  rcases h : alookup ((alookup ((alookup ps.agentsIdx ((p.webId).getD [])).getD [])
      p.accessType).getD []) p.resourceUrl with _ | r
  · rcases cell with _ | r0
    · rw [indexPerm_false_insert_nocell ps p h]
      exact ⟨ps.objs.length, lookup3_aset_self _ _ _ _ _⟩
    · rw [indexPerm_false_insert_cell ps p r0 h]
      exact ⟨r0, lookup3_aset_self _ _ _ _ _⟩
  · rw [indexPerm_false_merge ps p cell r h]
    exact ⟨r, lookup3_of_getD _ _ _ _ _ h⟩

theorem alookup_append_of_some {κ α : Type} [DecidableEq κ]
    {l l2 : List (κ × α)} {k : κ} {v : α} (h : alookup l k = some v) :
    alookup (l ++ l2) k = some v := by
  rw [alookup_append, h]

theorem alookup_append_of_none {κ α : Type} [DecidableEq κ]
    {l l2 : List (κ × α)} {k : κ} (h : alookup l k = none) :
    alookup (l ++ l2) k = alookup l2 k := by
  rw [alookup_append, h]

theorem hashFragment_eq {p : Permission} {w u : Str}
    (h : p.hashFragment = some (w, u)) :
    p.webId = some w ∧ p.resourceUrl = u ∧ u ≠ [] := by
  unfold Permission.hashFragment at h
  cases hw : p.webId with
  | none => rw [hw] at h; exact absurd h (by simp)
  | some w0 =>
    rw [hw] at h
    replace h : (if p.resourceUrl.isEmpty = true then none
        else some (w0, p.resourceUrl)) = some (w, u) := h
    by_cases hu : p.resourceUrl.isEmpty = true
    · rw [if_pos hu] at h
      exact absurd h (by simp)
    · rw [if_neg hu] at h
      have h1 : w0 = w ∧ p.resourceUrl = u := by
        have := Option.some.inj h
        exact ⟨(Prod.mk.injEq _ _ _ _ |>.mp this).1,
          (Prod.mk.injEq _ _ _ _ |>.mp this).2⟩
      refine ⟨congrArg some h1.1, h1.2, ?_⟩
      intro he
      rw [← h1.2] at he
      rw [he] at hu
      exact hu rfl

theorem addSingleStep_merge (ps : PermissionSet) (p : Permission)
    (key : Str × Str) (r : Ref) (hk : p.hashFragment = some key)
    (hl : alookup ps.permissions key = some r) :
    ps.addSingleStep p =
      Except.ok (ps.mutObj r (fun q => q.mergeWith p), none, (key, r)) := by
  simp [addSingleStep, hk, hl]

theorem addSingleStep_fresh (ps : PermissionSet) (p : Permission)
    (key : Str × Str) (hk : p.hashFragment = some key)
    (hl : alookup ps.permissions key = none) :
    ps.addSingleStep p =
      Except.ok ({ ps with
          objs := ps.objs ++ [p],
          permissions := ps.permissions ++ [(key, ps.objs.length)] },
        some ps.objs.length, (key, ps.objs.length)) := by
  simp [addSingleStep, hk, hl, allocObj]

theorem addIndexes_frame (ps : PermissionSet) (p : Permission)
    (cell : Option Ref) :
    (ps.addIndexes p cell).permissions = ps.permissions ∧
    (ps.addIndexes p cell).resourceUrl = ps.resourceUrl := by
  unfold addIndexes
  rcases hI : ps.indexPerm false p cell with ⟨ps1, cell1⟩
  have hf := indexPerm_false_frame ps p cell
  rw [hI] at hf
  by_cases hp : (p.isPublic || p.isGroup) = true
  · have hg := indexPerm_true_agentsIdx ps1 p cell1
    simp only [hp, if_true]
    exact ⟨hg.2.1.trans hf.2.1, hg.2.2.trans hf.2.2⟩
  · simp only [hp, if_false]
    exact ⟨hf.2.1, hf.2.2⟩

theorem addIndexes_agents_lookup (ps : PermissionSet) (p : Permission)
    (cell : Option Ref) :
    ∃ r, lookup3 ((ps.addIndexes p cell).agentsIdx) ((p.webId).getD [])
      p.accessType p.resourceUrl = some r := by
  unfold addIndexes
  rcases hI : ps.indexPerm false p cell with ⟨ps1, cell1⟩
  obtain ⟨r, hr⟩ := indexPerm_false_lookup_exists ps p cell
  rw [hI] at hr
  by_cases hp : (p.isPublic || p.isGroup) = true
  · have hg := indexPerm_true_agentsIdx ps1 p cell1
    simp only [hp, if_true]
    exact ⟨r, hg.1 ▸ hr⟩
  · simp only [hp, if_false]
    exact ⟨r, hr⟩

theorem addSingleBase_lookup_mono (ps : PermissionSet) (q : Permission)
    (ps' : PermissionSet) (key : Str × Str) (r : Ref)
    (h : ps.addSingleBase q = Except.ok ps')
    (hl : alookup ps.permissions key = some r) :
    alookup ps'.permissions key = some r := by
  unfold addSingleBase at h
  cases hk : q.hashFragment with
  | none =>
    rw [show ps.addSingleStep q = Except.error
      "Cannot call hashFragment() on an incomplete permission".data from
      by simp [addSingleStep, hk]] at h
    exact absurd h (by simp [Bind.bind, Except.bind])
  | some key2 =>
    cases hl2 : alookup ps.permissions key2 with
    | some r2 =>
      rw [addSingleStep_merge ps q key2 r2 hk hl2] at h
      simp only [Bind.bind, Except.bind, Except.ok.injEq] at h
      rw [← h]
      rw [(addIndexes_frame _ q none).1]
      exact hl
    | none =>
      rw [addSingleStep_fresh ps q key2 hk hl2] at h
      simp only [Bind.bind, Except.bind, Except.ok.injEq] at h
      rw [← h]
      rw [(addIndexes_frame _ q (some ps.objs.length)).1]
      exact alookup_append_of_some hl

/-- C5 counterexample: add one Read permission, then remove its only mode.
The permission is deleted from the `permissions` map (`removeSinglePermission`
deletes from the map only), but the agent index still holds a reference to the
now mode-less permission object — an index entry referring to a permission
absent from the map, refuting the claimed invariant. -/
theorem C5_remove_leaves_index_cex :
    ∃ ps2 : PermissionSet,
      ((mkPermissionSet "/d/f".data).addPermission "a".data [READ]).bind
          (fun ps1 => ps1.removePermission "a".data [READ]) = Except.ok ps2 ∧
      ps2.permissions = [] ∧
      lookup3 ps2.agentsIdx "a".data ACCESS_TO "/d/f".data = some 0 ∧
      (ps2.getObj 0).accessModes = [] :=
  ⟨(((mkPermissionSet "/d/f".data).addPermission "a".data [READ]).bind
      (fun ps1 => ps1.removePermission "a".data [READ])).toOption.getD {},
    rfl, by decide, by decide, by decide⟩

theorem removePermission_frame (ps : PermissionSet) (w : Str) (mods : List Str)
    (ps' : PermissionSet) (h : ps.removePermission w mods = Except.ok ps') :
    ps'.agentsIdx = ps.agentsIdx ∧ ps'.groupsIdx = ps.groupsIdx := by
  unfold removePermission at h
  cases hf : ps.permissionFor w ps.resourceUrl with
  | none =>
    rw [hf] at h
    have : ps = ps' := Except.ok.inj h
    rw [← this]
    exact ⟨rfl, rfl⟩
  | some r =>
    rw [hf] at h
    replace h : (if ((ps.mutObj r (fun q => q.removeMode mods)).getObj r).isEmpty
          = true
        then (ps.mutObj r (fun q => q.removeMode mods)).removeSinglePermission
          ((ps.mutObj r (fun q => q.removeMode mods)).getObj r)
        else Except.ok (ps.mutObj r (fun q => q.removeMode mods))) =
        Except.ok ps' := h
    by_cases he : ((ps.mutObj r (fun q => q.removeMode mods)).getObj r).isEmpty = true
    · rw [if_pos he] at h
      unfold removeSinglePermission at h
      cases hk : ((ps.mutObj r (fun q => q.removeMode mods)).getObj r).hashFragment with
      | none =>
        rw [hk] at h
        exact absurd h (by simp)
      | some key =>
        rw [hk] at h
        have := Except.ok.inj h
        rw [← this]
        exact ⟨rfl, rfl⟩
    · rw [if_neg he] at h
      have := Except.ok.inj h
      rw [← this]
      exact ⟨rfl, rfl⟩

/-- C5 (amended): every successful `addSinglePermission` leaves the added
permission visible in both the `permissions` map and the agent index (the add
path keeps them consistent); `removePermission` never touches the index
structures, and when the permission's remaining mode set becomes empty it is
deleted from the `permissions` map only — the indices keep their reference to
the emptied object, which then allows no mode. -/
theorem C5_index_update_spec (ps : PermissionSet) (p : Permission)
    (w u : Str) (mods : List Str) (r : Ref) :
    (∀ ps', p.hashFragment = some (w, u) →
      ps.addSinglePermission p = Except.ok ps' →
      (∃ r0, alookup ps'.permissions (w, u) = some r0) ∧
      (∃ r1, lookup3 ps'.agentsIdx w p.accessType u = some r1))
    ∧ (∀ ps', ps.removePermission w mods = Except.ok ps' →
        ps'.agentsIdx = ps.agentsIdx ∧ ps'.groupsIdx = ps.groupsIdx)
    ∧ (ps.permissionFor w ps.resourceUrl = some r →
        ((ps.getObj r).removeMode mods).isEmpty = true →
        ps.keysConsistent = true → (akeys ps.permissions).Nodup →
        r < ps.objs.length → ps.resourceUrl ≠ [] →
        ∃ ps', ps.removePermission w mods = Except.ok ps' ∧
          alookup ps'.permissions (w, ps.resourceUrl) = none ∧
          ps'.agentsIdx = ps.agentsIdx ∧
          (∀ m, (ps'.getObj r).allowsMode m = false)) := by
  refine ⟨?_, fun ps' h => removePermission_frame ps w mods ps' h, ?_⟩
  · intro ps' hk h
    obtain ⟨hwId, hu, hune⟩ := hashFragment_eq hk
    unfold addSinglePermission at h
    have hIdx : ∀ ps2 : PermissionSet,
        (∃ r1, lookup3 ((ps2.addIndexes p none).agentsIdx) w p.accessType u =
          some r1) := by
      intro ps2
      obtain ⟨r1, hr1⟩ := addIndexes_agents_lookup ps2 p none
      rw [hwId, Option.getD_some, hu] at hr1
      exact ⟨r1, hr1⟩
    cases hl : alookup ps.permissions (w, u) with
    | some r0 =>
      rw [addSingleStep_merge ps p (w, u) r0 hk hl] at h
      simp only [Bind.bind, Except.bind] at h
      by_cases hc : (!p.virtual && p.allowsControl) = true
      · rw [if_pos hc] at h
        cases hcc : (ps.mutObj r0 (fun q => q.mergeWith p)).addControlPermissionsFor p with
        | error e => rw [hcc] at h; exact absurd h (by simp)
        | ok ps2 =>
          rw [hcc] at h
          replace h := Except.ok.inj h
          have hl2 : alookup ps2.permissions (w, u) = some r0 :=
            addSingleBase_lookup_mono _ _ _ _ _ hcc hl
          constructor
          · refine ⟨r0, ?_⟩
            rw [← h, (addIndexes_frame ps2 p none).1]
            exact hl2
          · rw [← h]
            exact hIdx ps2
      · rw [if_neg hc] at h
        replace h := Except.ok.inj h
        constructor
        · refine ⟨r0, ?_⟩
          rw [← h, (addIndexes_frame _ p none).1]
          exact hl
        · rw [← h]
          exact hIdx _
    | none =>
      rw [addSingleStep_fresh ps p (w, u) hk hl] at h
      simp only [Bind.bind, Except.bind] at h
      have hlNew : alookup ({ ps with
          objs := ps.objs ++ [p],
          permissions := ps.permissions ++ [(( w, u), ps.objs.length)] } :
          PermissionSet).permissions (w, u) = some ps.objs.length := by
        show alookup (ps.permissions ++ [((w, u), ps.objs.length)]) (w, u) = _
        rw [alookup_append_of_none hl, alookup]
        simp
      by_cases hc : (!p.virtual && p.allowsControl) = true
      · rw [if_pos hc] at h
        cases hcc : ({ ps with
            objs := ps.objs ++ [p],
            permissions := ps.permissions ++ [((w, u), ps.objs.length)] } :
            PermissionSet).addControlPermissionsFor p with
        | error e => rw [hcc] at h; exact absurd h (by simp)
        | ok ps2 =>
          rw [hcc] at h
          replace h := Except.ok.inj h
          have hl2 : alookup ps2.permissions (w, u) = some ps.objs.length :=
            addSingleBase_lookup_mono _ _ _ _ _ hcc hlNew
          constructor
          · refine ⟨ps.objs.length, ?_⟩
            rw [← h, (addIndexes_frame ps2 p (some ps.objs.length)).1]
            exact hl2
          · rw [← h]
            obtain ⟨r1, hr1⟩ := addIndexes_agents_lookup ps2 p (some ps.objs.length)
            rw [hwId, Option.getD_some, hu] at hr1
            exact ⟨r1, hr1⟩
      · rw [if_neg hc] at h
        replace h := Except.ok.inj h
        constructor
        · refine ⟨ps.objs.length, ?_⟩
          rw [← h, (addIndexes_frame _ p (some ps.objs.length)).1]
          exact hlNew
        · rw [← h]
          obtain ⟨r1, hr1⟩ := addIndexes_agents_lookup _ p (some ps.objs.length)
          rw [hwId, Option.getD_some, hu] at hr1
          exact ⟨r1, hr1⟩
  · intro hf he hkc hnd hrb hru
    have hq : (ps.mutObj r (fun q => q.removeMode mods)).getObj r =
        (ps.getObj r).removeMode mods := getObj_mutObj_self ps r _ hrb
    have hlook : alookup ps.permissions (w, ps.resourceUrl) = some r := by
      unfold permissionFor at hf
      by_cases hw0 : w.isEmpty = true
      · rw [if_pos hw0] at hf
        exact absurd hf (by simp)
      · rw [if_neg hw0] at hf
        by_cases hre : ps.resourceUrl.isEmpty = true
        · rw [if_pos hre] at hf
          exact hf
        · rw [if_neg hre] at hf
          exact hf
    have hcons0 := List.all_eq_true.mp hkc _ (alookup_mem hlook)
    have hcons : (ps.getObj r).webId = some w ∧
        (ps.getObj r).resourceUrl = ps.resourceUrl := by
      simpa using hcons0
    have hqKey : ((ps.getObj r).removeMode mods).hashFragment =
        some (w, ps.resourceUrl) := by
      unfold Permission.hashFragment
      rw [webId_removeMode, hcons.1, (removeMode_proj _ _).2.2.1, hcons.2]
      show (if ps.resourceUrl.isEmpty = true then none
          else some (w, ps.resourceUrl)) = some (w, ps.resourceUrl)
      rw [if_neg (by simpa [List.isEmpty_iff] using hru)]
    refine ⟨{ ps.mutObj r (fun q => q.removeMode mods) with
        permissions := aerase ps.permissions (w, ps.resourceUrl) }, ?_, ?_, rfl, ?_⟩
    · unfold removePermission
      rw [hf]
      show (if ((ps.mutObj r (fun q => q.removeMode mods)).getObj r).isEmpty = true
          then (ps.mutObj r (fun q => q.removeMode mods)).removeSinglePermission
            ((ps.mutObj r (fun q => q.removeMode mods)).getObj r)
          else Except.ok (ps.mutObj r (fun q => q.removeMode mods))) = _
      rw [if_pos (by rw [hq]; exact he)]
      unfold removeSinglePermission
      rw [hq, hqKey]
      rfl
    · exact alookup_aerase_self_of_nodup hnd
    · intro m
      have hmodes : ((ps.getObj r).removeMode mods).accessModes = [] := by
        rw [← List.isEmpty_iff]
        exact he
      show (((ps.mutObj r (fun q => q.removeMode mods)).getObj r).allowsMode m) = false
      rw [hq, Permission.allowsMode_eq_false, hmodes]
      simp

theorem indexPerm_false_modes_bounds (ps : PermissionSet) (p : Permission)
    (cell : Option Ref) (n : Ref) (hn : n < ps.objs.length) :
    (∀ x, x ∈ (ps.getObj n).accessModes →
      x ∈ (((ps.indexPerm false p cell).1).getObj n).accessModes) ∧
    (∀ x, x ∈ (((ps.indexPerm false p cell).1).getObj n).accessModes →
      x ∈ (ps.getObj n).accessModes ∨ x ∈ p.accessModes) := by
  rcases h : alookup ((alookup ((alookup ps.agentsIdx ((p.webId).getD [])).getD [])
      p.accessType).getD []) p.resourceUrl with _ | r
  · rcases cell with _ | r0
    · rw [indexPerm_false_insert_nocell ps p h]
      have hobj : ({ ps with
          objs := ps.objs ++ [p],
          agentsIdx := aset ps.agentsIdx ((p.webId).getD [])
            (aset ((alookup ps.agentsIdx ((p.webId).getD [])).getD []) p.accessType
              (aset ((alookup ((alookup ps.agentsIdx ((p.webId).getD [])).getD [])
                p.accessType).getD []) p.resourceUrl ps.objs.length)) } :
          PermissionSet).getObj n = ps.getObj n := getD_append_left _ _ _ _ hn
      rw [hobj]
      exact ⟨fun x hx => hx, fun x hx => Or.inl hx⟩
    · rw [indexPerm_false_insert_cell ps p r0 h]
      exact ⟨fun x hx => hx, fun x hx => Or.inl hx⟩
  · rw [indexPerm_false_merge ps p cell r h]
    by_cases hr : r = n
    · subst hr
      rw [getObj_mutObj_self ps r _ hn]
      exact ⟨fun x hx => mem_mergeWith.mpr (Or.inl hx),
        fun x hx => mem_mergeWith.mp hx⟩
    · rw [getObj_mutObj_ne ps r n _ hr]
      exact ⟨fun x hx => hx, fun x hx => Or.inl hx⟩

theorem indexPerm_true_modes_bounds (ps : PermissionSet) (p : Permission)
    (cell : Option Ref) (n : Ref) (hn : n < ps.objs.length) :
    (∀ x, x ∈ (ps.getObj n).accessModes →
      x ∈ (((ps.indexPerm true p cell).1).getObj n).accessModes) ∧
    (∀ x, x ∈ (((ps.indexPerm true p cell).1).getObj n).accessModes →
      x ∈ (ps.getObj n).accessModes ∨ x ∈ p.accessModes) := by
  rcases h : alookup ((alookup ((alookup ps.groupsIdx ((p.webId).getD [])).getD [])
      p.accessType).getD []) p.resourceUrl with _ | r
  · rcases cell with _ | r0
    · rw [indexPerm_true_insert_nocell ps p h]
      have hobj : ({ ps with
          objs := ps.objs ++ [p],
          groupsIdx := aset ps.groupsIdx ((p.webId).getD [])
            (aset ((alookup ps.groupsIdx ((p.webId).getD [])).getD []) p.accessType
              (aset ((alookup ((alookup ps.groupsIdx ((p.webId).getD [])).getD [])
                p.accessType).getD []) p.resourceUrl ps.objs.length)) } :
          PermissionSet).getObj n = ps.getObj n := getD_append_left _ _ _ _ hn
      rw [hobj]
      exact ⟨fun x hx => hx, fun x hx => Or.inl hx⟩
    · rw [indexPerm_true_insert_cell ps p r0 h]
      exact ⟨fun x hx => hx, fun x hx => Or.inl hx⟩
  · rw [indexPerm_true_merge ps p cell r h]
    by_cases hr : r = n
    · subst hr
      rw [getObj_mutObj_self ps r _ hn]
      exact ⟨fun x hx => mem_mergeWith.mpr (Or.inl hx),
        fun x hx => mem_mergeWith.mp hx⟩
    · rw [getObj_mutObj_ne ps r n _ hr]
      exact ⟨fun x hx => hx, fun x hx => Or.inl hx⟩

theorem indexPerm_objs_len_mono (ps : PermissionSet) (ug : Bool) (p : Permission)
    (cell : Option Ref) :
    ps.objs.length ≤ ((ps.indexPerm ug p cell).1).objs.length := by
  cases ug
  · rcases h : alookup ((alookup ((alookup ps.agentsIdx ((p.webId).getD [])).getD [])
        p.accessType).getD []) p.resourceUrl with _ | r
    · rcases cell with _ | r0
      · rw [indexPerm_false_insert_nocell ps p h]
        simp
      · rw [indexPerm_false_insert_cell ps p r0 h]
    · rw [indexPerm_false_merge ps p cell r h]
      simp [mutObj]
  · rcases h : alookup ((alookup ((alookup ps.groupsIdx ((p.webId).getD [])).getD [])
        p.accessType).getD []) p.resourceUrl with _ | r
    · rcases cell with _ | r0
      · rw [indexPerm_true_insert_nocell ps p h]
        simp
      · rw [indexPerm_true_insert_cell ps p r0 h]
    · rw [indexPerm_true_merge ps p cell r h]
      simp [mutObj]

theorem indexPerm_false_insert_fresh (ps : PermissionSet) (p : Permission)
    (r : Ref) (w : Str) (hw : (p.webId).getD [] = w)
    (hfa : alookup ps.agentsIdx w = none) :
    ps.indexPerm false p (some r) =
      ({ ps with
          agentsIdx := aset ps.agentsIdx w
            [(p.accessType, [(p.resourceUrl, r)])] }, some r) := by
  subst hw
  rw [indexPerm_false_insert_cell ps p r (by rw [hfa]; rfl)]
  rw [hfa]
  rfl

theorem indexPerm_true_insert_fresh (ps : PermissionSet) (p : Permission)
    (r : Ref) (w : Str) (hw : (p.webId).getD [] = w)
    (hfg : alookup ps.groupsIdx w = none) :
    ps.indexPerm true p (some r) =
      ({ ps with
          groupsIdx := aset ps.groupsIdx w
            [(p.accessType, [(p.resourceUrl, r)])] }, some r) := by
  subst hw
  rw [indexPerm_true_insert_cell ps p r (by rw [hfg]; rfl)]
  rw [hfg]
  rfl

theorem addIndexes_fresh (ps : PermissionSet) (p : Permission) (r : Ref)
    (w : Str) (hw : (p.webId).getD [] = w)
    (hfa : alookup ps.agentsIdx w = none)
    (hfg : alookup ps.groupsIdx w = none) :
    ps.addIndexes p (some r) =
      (if (p.isPublic || p.isGroup) = true
        then { ps with
            agentsIdx := aset ps.agentsIdx w
              [(p.accessType, [(p.resourceUrl, r)])],
            groupsIdx := aset ps.groupsIdx w
              [(p.accessType, [(p.resourceUrl, r)])] }
        else { ps with
            agentsIdx := aset ps.agentsIdx w
              [(p.accessType, [(p.resourceUrl, r)])] }) := by
  unfold addIndexes
  rw [indexPerm_false_insert_fresh ps p r w hw hfa]
  show (if (p.isPublic || p.isGroup) = true
      then ((({ ps with
          agentsIdx := aset ps.agentsIdx w
            [(p.accessType, [(p.resourceUrl, r)])] } : PermissionSet)).indexPerm
        true p (some r)).1
      else { ps with
        agentsIdx := aset ps.agentsIdx w
          [(p.accessType, [(p.resourceUrl, r)])] }) = _
  by_cases hp : (p.isPublic || p.isGroup) = true
  · rw [if_pos hp, if_pos hp]
    rw [indexPerm_true_insert_fresh ({ ps with
      agentsIdx := aset ps.agentsIdx w
        [(p.accessType, [(p.resourceUrl, r)])] } : PermissionSet) p r w hw hfg]
  · rw [if_neg hp, if_neg hp]

theorem addIndexes_modes_bounds (ps : PermissionSet) (p : Permission)
    (cell : Option Ref) (n : Ref) (hn : n < ps.objs.length) :
    (∀ x, x ∈ (ps.getObj n).accessModes →
      x ∈ ((ps.addIndexes p cell).getObj n).accessModes) ∧
    (∀ x, x ∈ ((ps.addIndexes p cell).getObj n).accessModes →
      x ∈ (ps.getObj n).accessModes ∨ x ∈ p.accessModes) := by
  unfold addIndexes
  rcases hI : ps.indexPerm false p cell with ⟨ps1, cell1⟩
  have hb := indexPerm_false_modes_bounds ps p cell n hn
  rw [hI] at hb
  have hlen : n < ps1.objs.length :=
    Nat.lt_of_lt_of_le hn (by
      have := indexPerm_objs_len_mono ps false p cell
      rw [hI] at this
      exact this)
  by_cases hp : (p.isPublic || p.isGroup) = true
  · simp only [hp, if_true]
    have hb2 := indexPerm_true_modes_bounds ps1 p cell1 n hlen
    constructor
    · intro x hx
      exact hb2.1 x (hb.1 x hx)
    · intro x hx
      rcases hb2.2 x hx with h1 | h2
      · exact hb.2 x h1
      · exact Or.inr h2
  · simp only [hp, if_false]
    exact hb

/-- C6 counterexample: adding the identical Control permission twice leaves
`count = 2`, not 1 — the first add already synthesizes the extra virtual
policy-resource permission, which is counted by the `count` getter. -/
theorem C6_control_count_cex :
    ∃ ps2 : PermissionSet,
      ((mkPermissionSet "/d/f".data).addPermission "a".data [CONTROL]).bind
          (fun ps1 => ps1.addPermission "a".data [CONTROL]) = Except.ok ps2 ∧
      ps2.count = 2 :=
  ⟨(((mkPermissionSet "/d/f".data).addPermission "a".data [CONTROL]).bind
      (fun ps1 => ps1.addPermission "a".data [CONTROL])).toOption.getD {},
    rfl, by decide⟩

/-- C6 (amended): for permissions sharing one identity key and not involving
Control (whose add also synthesizes a virtual permission and so changes the
count), with the key and the agent fresh in the set: adding `p1` then `p2`
leaves the count at the value after adding `p1` alone (no duplicate entry),
and the stored permission's mode set is the union of the two mode sets; in
particular adding an identical Control-free permission to an empty set twice
leaves `count = 1`. -/
theorem C6_duplicate_add_merges (ps : PermissionSet) (p1 p2 : Permission)
    (w u : Str)
    (h1 : p1.hashFragment = some (w, u)) (h2 : p2.hashFragment = some (w, u))
    (hc1 : CONTROL ∉ p1.accessModes) (hc2 : CONTROL ∉ p2.accessModes)
    (hfm : alookup ps.permissions (w, u) = none)
    (hfa : alookup ps.agentsIdx w = none)
    (hfg : alookup ps.groupsIdx w = none) :
    ∃ ps1 ps2, ps.addSinglePermission p1 = Except.ok ps1 ∧
      ps1.addSinglePermission p2 = Except.ok ps2 ∧
      ps1.count = ps.count + 1 ∧ ps2.count = ps1.count ∧
      ∃ rr, alookup ps2.permissions (w, u) = some rr ∧
        ∀ m, m ∈ (ps2.getObj rr).accessModes ↔
          m ∈ p1.accessModes ∨ m ∈ p2.accessModes := by
  obtain ⟨hw1, hu1, -⟩ := hashFragment_eq h1
  have hctrl1 : p1.allowsControl = false :=
    Permission.allowsMode_eq_false.mpr
      (fun hx => hx.elim hc1 (fun hx2 => Permission.CONTROL_ne_APPEND hx2.1))
  have hctrl2 : p2.allowsControl = false :=
    Permission.allowsMode_eq_false.mpr
      (fun hx => hx.elim hc2 (fun hx2 => Permission.CONTROL_ne_APPEND hx2.1))
  have hcond1 : (!p1.virtual && p1.allowsControl) = false := by
    rw [hctrl1]
    exact Bool.and_false _
  have hcond2 : (!p2.virtual && p2.allowsControl) = false := by
    rw [hctrl2]
    exact Bool.and_false _
  have hwgd : (p1.webId).getD [] = w := by rw [hw1]; rfl
  -- First add: fresh insert everywhere.
  obtain ⟨psB, hAdd1, hBperm, hBobjs⟩ :
      ∃ psB, ps.addSinglePermission p1 = Except.ok psB ∧
        psB.permissions = ps.permissions ++ [((w, u), ps.objs.length)] ∧
        psB.objs = ps.objs ++ [p1] := by
    unfold addSinglePermission
    rw [addSingleStep_fresh ps p1 (w, u) h1 hfm]
    simp only [Bind.bind, Except.bind]
    rw [if_neg (by rw [hcond1]; exact Bool.false_ne_true)]
    set psA : PermissionSet := { ps with
      objs := ps.objs ++ [p1],
      permissions := ps.permissions ++ [((w, u), ps.objs.length)] } with hpsA
    have hfaA : alookup psA.agentsIdx w = none := hfa
    have hfgA : alookup psA.groupsIdx w = none := hfg
    rw [addIndexes_fresh psA p1 ps.objs.length w hwgd hfaA hfgA]
    by_cases hp : (p1.isPublic || p1.isGroup) = true
    · rw [if_pos hp]
      exact ⟨_, rfl, rfl, rfl⟩
    · rw [if_neg hp]
      exact ⟨_, rfl, rfl, rfl⟩
  have hlookB : alookup psB.permissions (w, u) = some ps.objs.length := by
    rw [hBperm, alookup_append_of_none hfm]
    simp [alookup]
  have hgetB : psB.getObj ps.objs.length = p1 := by
    show psB.objs.getD ps.objs.length default = p1
    rw [hBobjs]
    exact getD_append_self _ _ _
  have hlenB : ps.objs.length < psB.objs.length := by
    rw [hBobjs]
    simp
  have hM : (psB.mutObj ps.objs.length (fun q => q.mergeWith p2)).getObj
      ps.objs.length = p1.mergeWith p2 := by
    rw [getObj_mutObj_self psB ps.objs.length _ hlenB, hgetB]
  refine ⟨psB, (psB.mutObj ps.objs.length (fun q => q.mergeWith p2)).addIndexes
    p2 none, hAdd1, ?_, ?_, ?_, ?_⟩
  · unfold addSinglePermission
    rw [addSingleStep_merge psB p2 (w, u) ps.objs.length h2 hlookB]
    simp only [Bind.bind, Except.bind]
    rw [if_neg (by rw [hcond2]; exact Bool.false_ne_true)]
  · show psB.permissions.length = ps.permissions.length + 1
    rw [hBperm]
    simp
  · show ((psB.mutObj ps.objs.length (fun q => q.mergeWith p2)).addIndexes p2
      none).permissions.length = psB.permissions.length
    rw [(addIndexes_frame _ p2 none).1]
    rfl
  · refine ⟨ps.objs.length, ?_, ?_⟩
    · rw [(addIndexes_frame _ p2 none).1]
      exact hlookB
    · intro m
      have hlenM : ps.objs.length <
          (psB.mutObj ps.objs.length (fun q => q.mergeWith p2)).objs.length := by
        rw [(mutObj_frame psB ps.objs.length _).2.2.2.2]
        exact hlenB
      have hb := addIndexes_modes_bounds
        (psB.mutObj ps.objs.length (fun q => q.mergeWith p2)) p2 none
        ps.objs.length hlenM
      constructor
      · intro hm
        rcases hb.2 m hm with hI | hI2
        · rw [hM] at hI
          exact mem_mergeWith.mp hI
        · exact Or.inr hI2
      · intro hm
        apply hb.1
        rw [hM]
        exact mem_mergeWith.mpr hm

/-- Witness for C6: adding the same Control-free permission twice to an empty
set yields one entry whose modes are the union. -/
theorem C6_duplicate_add_merges_witness :
    ∃ ps1 ps2, (mkPermissionSet "/d/f".data).addSinglePermission
        { resourceUrl := "/d/f".data, agent := some "a".data,
          accessModes := [READ, WRITE] } = Except.ok ps1 ∧
      ps1.addSinglePermission
        { resourceUrl := "/d/f".data, agent := some "a".data,
          accessModes := [READ, WRITE] } = Except.ok ps2 ∧
      ps1.count = (mkPermissionSet "/d/f".data).count + 1 ∧
      ps2.count = ps1.count ∧
      ∃ rr, alookup ps2.permissions ("a".data, "/d/f".data) = some rr ∧
        ∀ m, m ∈ (ps2.getObj rr).accessModes ↔
          m ∈ [READ, WRITE] ∨ m ∈ [READ, WRITE] :=
  C6_duplicate_add_merges (mkPermissionSet "/d/f".data)
    { resourceUrl := "/d/f".data, agent := some "a".data,
      accessModes := [READ, WRITE] }
    { resourceUrl := "/d/f".data, agent := some "a".data,
      accessModes := [READ, WRITE] }
    "a".data "/d/f".data (by decide) (by decide) (by decide) (by decide)
    (by decide) (by decide) (by decide)

/-- C10: `removePermission(webId, modes)` only ever affects the single
permission keyed by (webId, the set's own resourceUrl): every map entry whose
permission is for a different resourceUrl survives with its permission value
unchanged, and the count decreases by at most one. -/
theorem C10_removePermission_frame (ps : PermissionSet) (w' : Str)
    (mods : List Str) (k : Str × Str) (r : Ref) (ps' : PermissionSet)
    (hkc : ps.keysConsistent = true)
    (hmem : (k, r) ∈ ps.permissions)
    (hne : (ps.getObj r).resourceUrl ≠ ps.resourceUrl)
    (h : ps.removePermission w' mods = Except.ok ps') :
    (k, r) ∈ ps'.permissions ∧ ps'.getObj r = ps.getObj r ∧
    ps.count - 1 ≤ ps'.count ∧ ps'.count ≤ ps.count := by
  have hkr : (ps.getObj r).webId = some k.1 ∧ (ps.getObj r).resourceUrl = k.2 := by
    have := List.all_eq_true.mp hkc _ hmem
    simpa using this
  unfold removePermission at h
  cases hf : ps.permissionFor w' ps.resourceUrl with
  | none =>
    rw [hf] at h
    obtain rfl : ps = ps' := Except.ok.inj h
    exact ⟨hmem, rfl, Nat.sub_le _ _, Nat.le_refl _⟩
  | some r0 =>
    rw [hf] at h
    -- the found entry is keyed by the set's own resourceUrl
    have hlook : alookup ps.permissions (w', ps.resourceUrl) = some r0 := by
      unfold permissionFor at hf
      by_cases hw0 : w'.isEmpty = true
      · rw [if_pos hw0] at hf
        exact absurd hf (by simp)
      · rw [if_neg hw0] at hf
        by_cases hre : ps.resourceUrl.isEmpty = true
        · rw [if_pos hre] at hf
          exact hf
        · rw [if_neg hre] at hf
          exact hf
    have hk0 : (ps.getObj r0).resourceUrl = ps.resourceUrl := by
      have h2 : (ps.getObj r0).webId = some w' ∧
          (ps.getObj r0).resourceUrl = ps.resourceUrl := by
        have := List.all_eq_true.mp hkc _ (alookup_mem hlook)
        simpa using this
      exact h2.2
    have hr0r : r0 ≠ r := by
      intro he
      rw [he] at hk0
      exact hne hk0
    have hget : (ps.mutObj r0 (fun q => q.removeMode mods)).getObj r =
        ps.getObj r := getObj_mutObj_ne ps r0 r _ hr0r
    replace h : (if ((ps.mutObj r0 (fun q => q.removeMode mods)).getObj r0).isEmpty
          = true
        then (ps.mutObj r0 (fun q => q.removeMode mods)).removeSinglePermission
          ((ps.mutObj r0 (fun q => q.removeMode mods)).getObj r0)
        else Except.ok (ps.mutObj r0 (fun q => q.removeMode mods))) =
        Except.ok ps' := h
    by_cases he : ((ps.mutObj r0 (fun q => q.removeMode mods)).getObj r0).isEmpty
        = true
    · rw [if_pos he] at h
      unfold removeSinglePermission at h
      cases hk2 : ((ps.mutObj r0 (fun q => q.removeMode mods)).getObj
          r0).hashFragment with
      | none =>
        rw [hk2] at h
        exact absurd h (by simp)
      | some key2 =>
        rw [hk2] at h
        obtain rfl : ({ ps.mutObj r0 (fun q => q.removeMode mods) with
            permissions := aerase (ps.mutObj r0
              (fun q => q.removeMode mods)).permissions key2 } :
            PermissionSet) = ps' := Except.ok.inj h
        -- the erased key is for the set's own resourceUrl, so `k` differs
        have hkey2 : key2.2 = ps.resourceUrl := by
          obtain ⟨hw2, hu2, -⟩ := hashFragment_eq hk2
          have hmut : (ps.mutObj r0 (fun q => q.removeMode mods)).getObj r0 =
              (ps.getObj r0).removeMode mods := by
            by_cases hrb : r0 < ps.objs.length
            · exact getObj_mutObj_self ps r0 _ hrb
            · exfalso
              have hdef : (ps.mutObj r0 (fun q => q.removeMode mods)).getObj r0
                  = default := by
                show (ps.objs.set r0 _).getD r0 default = default
                apply List.getD_eq_default
                rw [List.length_set]
                exact Nat.le_of_not_lt hrb
              rw [hdef] at hk2
              have hnone : (default : Permission).hashFragment = none := rfl
              rw [hnone] at hk2
              exact Option.noConfusion hk2
          rw [hmut] at hu2
          rw [← hu2, (removeMode_proj _ _).2.2.1, hk0]
        have hkne : k ≠ key2 := by
          intro hkk
          apply hne
          rw [hkr.2, hkk, hkey2]
        refine ⟨?_, hget, ?_, ?_⟩
        · exact mem_aerase_of_mem hmem hkne
        · show ps.permissions.length - 1 ≤
            (aerase ps.permissions key2).length
          have := length_le_aerase_succ ps.permissions key2
          omega
        · show (aerase ps.permissions key2).length ≤ ps.permissions.length
          exact aerase_length_le _ _
    · rw [if_neg he] at h
      obtain rfl : ps.mutObj r0 (fun q => q.removeMode mods) = ps' :=
        Except.ok.inj h
      exact ⟨hmem, hget, Nat.sub_le _ _, Nat.le_refl _⟩

/-- Witness for C10: a set holding a direct permission for the set's resource
plus an inherited permission for another container; removing the first leaves
the second entry and its permission value untouched. -/
theorem C10_removePermission_frame_witness :
    (((((mkPermissionSet "/d/f".data).addPermission "a".data [READ]).bind (fun x => x.addSinglePermission { resourceUrl := "/c/".data, agent := some "b".data, accessModes := [READ] })).toOption.getD {}).keysConsistent = true) ∧
    ((("b".data, "/c/".data), 1) ∈ ((((mkPermissionSet "/d/f".data).addPermission "a".data [READ]).bind (fun x => x.addSinglePermission { resourceUrl := "/c/".data, agent := some "b".data, accessModes := [READ] })).toOption.getD {}).permissions) ∧
    ((("b".data, "/c/".data), 1) ∈ (((((((mkPermissionSet "/d/f".data).addPermission "a".data [READ]).bind (fun x => x.addSinglePermission { resourceUrl := "/c/".data, agent := some "b".data, accessModes := [READ] })).toOption.getD {})).removePermission "a".data [READ]).toOption.getD {}).permissions) ∧
    ((((((((mkPermissionSet "/d/f".data).addPermission "a".data [READ]).bind (fun x => x.addSinglePermission { resourceUrl := "/c/".data, agent := some "b".data, accessModes := [READ] })).toOption.getD {})).removePermission "a".data [READ]).toOption.getD {}).getObj 1 = ((((mkPermissionSet "/d/f".data).addPermission "a".data [READ]).bind (fun x => x.addSinglePermission { resourceUrl := "/c/".data, agent := some "b".data, accessModes := [READ] })).toOption.getD {}).getObj 1) :=
  have happ := C10_removePermission_frame ((((mkPermissionSet "/d/f".data).addPermission "a".data [READ]).bind (fun x => x.addSinglePermission { resourceUrl := "/c/".data, agent := some "b".data, accessModes := [READ] })).toOption.getD {})
    "a".data [READ] ("b".data, "/c/".data) 1 (((((((mkPermissionSet "/d/f".data).addPermission "a".data [READ]).bind (fun x => x.addSinglePermission { resourceUrl := "/c/".data, agent := some "b".data, accessModes := [READ] })).toOption.getD {})).removePermission "a".data [READ]).toOption.getD {})
    (by decide) (by decide) (by decide) rfl
  ⟨by decide, by decide, happ.1, happ.2.1⟩

/-- Witness for C5 at the concrete one-permission set: the add is consistent,
and the emptying removal deletes the map entry while preserving the index. -/
theorem C5_index_update_spec_witness :
    ((((mkPermissionSet "/d/f".data).addPermission "a".data
        [READ]).toOption.getD {}).permissionFor "a".data "/d/f".data = some 0) ∧
    ∃ ps', (((mkPermissionSet "/d/f".data).addPermission "a".data
        [READ]).toOption.getD {}).removePermission "a".data [READ] =
        Except.ok ps' ∧
      alookup ps'.permissions ("a".data, "/d/f".data) = none ∧
      ps'.agentsIdx = (((mkPermissionSet "/d/f".data).addPermission "a".data
        [READ]).toOption.getD {}).agentsIdx ∧
      (∀ m, (ps'.getObj 0).allowsMode m = false) :=
  ⟨by decide,
    (C5_index_update_spec (((mkPermissionSet "/d/f".data).addPermission
        "a".data [READ]).toOption.getD {}) (Permission.make [] false) "a".data
        [] [READ] 0).2.2 (by decide) (by decide) (by decide) (by decide)
      (by decide) (by decide)⟩


/-- Members of the serializable view are never virtual: the virtual implied
Control permission contributes nothing to `serialize()` output. -/
theorem virtual_not_serialized (ps : PermissionSet) (q : Permission)
    (hv : q.virtual = true) : q ∉ ps.serializedPermissions := by
  intro hmem
  unfold serializedPermissions at hmem
  have h := (List.mem_filter.mp hmem).2
  rw [hv] at h
  simp at h

/-- `addIndexes` in terms of an already-computed agent-index step. -/
theorem addIndexes_split (ps : PermissionSet) (p : Permission)
    (cell : Option Ref) (ps1 : PermissionSet) (cell1 : Option Ref)
    (h : ps.indexPerm false p cell = (ps1, cell1)) :
    ps.addIndexes p cell =
      (if (p.isPublic || p.isGroup) = true
        then (ps1.indexPerm true p cell1).1 else ps1) := by
  unfold addIndexes
  rw [h]

/-- `findPermByAgent` on the agent index returns an exact accessTo match. -/
theorem findPermByAgent_agents_accessTo (ps : PermissionSet) (w u : Str)
    (tIdx : TypeIndex) (rIdx : ResIndex) (r : Ref)
    (h1 : alookup ps.agentsIdx w = some tIdx)
    (h2 : alookup tIdx ACCESS_TO = some rIdx)
    (h3 : alookup rIdx u = some r) :
    ps.findPermByAgent w u AGENT_INDEX = some r := by
  have hne : ¬(AGENT_INDEX = GROUP_INDEX) := by decide
  simp [findPermByAgent, hne, h1, h2, h3]

/-- `findPermByAgent` on the agent index returns an exact default match when
the accessTo branch misses. -/
theorem findPermByAgent_agents_default_exact (ps : PermissionSet) (w u : Str)
    (tIdx : TypeIndex) (dIdx : ResIndex) (r : Ref)
    (h1 : alookup ps.agentsIdx w = some tIdx)
    (h2 : (alookup tIdx ACCESS_TO).bind (fun rIdx => alookup rIdx u) = none)
    (h3 : alookup tIdx DEFAULT = some dIdx)
    (h4 : alookup dIdx u = some r) :
    ps.findPermByAgent w u AGENT_INDEX = some r := by
  have hne : ¬(AGENT_INDEX = GROUP_INDEX) := by decide
  simp [findPermByAgent, hne, h1, h2, h3, h4]

/-- C4 counterexample: adding a permission with modes {Control, Append}
synthesizes a virtual permission for the policy-resource URL whose mode set
still contains Append — the synthesized modes are not exactly
{Read, Write, Control} as claimed, but the union of the triggering
permission's modes with them. -/
theorem C4_implied_modes_cex :
    ∃ ps1 : PermissionSet,
      (mkPermissionSet "/d/f".data).addSinglePermission
        { resourceUrl := "/d/f".data, agent := some "a".data,
          accessModes := [CONTROL, APPEND] } = Except.ok ps1 ∧
      alookup ps1.permissions ("a".data, "/d/f.acl".data) = some 1 ∧
      (ps1.getObj 1).virtual = true ∧
      APPEND ∈ (ps1.getObj 1).accessModes :=
  ⟨((mkPermissionSet "/d/f".data).addSinglePermission
      { resourceUrl := "/d/f".data, agent := some "a".data,
        accessModes := [CONTROL, APPEND] }).toOption.getD {},
    rfl, by decide, by decide, by decide⟩


/-- C4 (amended): adding a fresh, non-virtual permission `p` whose modes
include Control (agent key `w`, resource `u`, policy-resource URL `acl`)
adds exactly one additional virtual permission: same agent and group,
resourceUrl rewritten to `acl`, `virtual = true`, and mode set equal to the
*union* of `p`'s modes with {Read, Write, Control} — not always exactly
{Read, Write, Control} as claimed. The synthesized permission is not itself
re-scanned for Control (the count grows by exactly 2, p's entry plus one),
it never appears in the serializable view, and the set then grants Read,
Write and Control on `acl` to `p`'s agent. -/
theorem C4_control_synthesis (ps : PermissionSet) (p : Permission)
    (w u acl : Str)
    (hv : p.virtual = false)
    (hctl : CONTROL ∈ p.accessModes)
    (hk : p.hashFragment = some (w, u))
    (hacldef : ps.aclUrlFor u = acl)
    (hane : acl ≠ u)
    (hanil : acl ≠ [])
    (hfm1 : alookup ps.permissions (w, u) = none)
    (hfm2 : alookup ps.permissions (w, acl) = none)
    (hfa : alookup ps.agentsIdx w = none)
    (hfg : alookup ps.groupsIdx w = none)
    (hso : ps.strictOrigin = false) :
    ∃ ps', ps.addSinglePermission p = Except.ok ps' ∧
      ps'.count = ps.count + 2 ∧
      alookup ps'.permissions (w, u) = some ps.objs.length ∧
      ps'.getObj ps.objs.length = p ∧
      alookup ps'.permissions (w, acl) = some (ps.objs.length + 1) ∧
      (ps'.getObj (ps.objs.length + 1)).agent = p.agent ∧
      (ps'.getObj (ps.objs.length + 1)).group = p.group ∧
      (ps'.getObj (ps.objs.length + 1)).resourceUrl = acl ∧
      (ps'.getObj (ps.objs.length + 1)).virtual = true ∧
      (∀ m, m ∈ (ps'.getObj (ps.objs.length + 1)).accessModes ↔
        m ∈ p.accessModes ∨ m ∈ ALL_MODES) ∧
      ps'.getObj (ps.objs.length + 1) ∉ ps'.serializedPermissions ∧
      ∀ m ∈ ALL_MODES, ps'.checkAccess acl w m {} = Except.ok true := by
  obtain ⟨hw, hu, hune⟩ := hashFragment_eq hk
  have hwgd : (p.webId).getD [] = w := by rw [hw]; rfl
  have hac : p.allowsControl = true :=
    Permission.allowsMode_iff.mpr (Or.inl hctl)
  have hcond : (!p.virtual && p.allowsControl) = true := by
    rw [hv, hac]
    rfl
  set q : Permission :=
    ({ p with resourceUrl := acl, virtual := true } : Permission).addMode
      ALL_MODES with hqdef
  have hqproj := addMode_proj
    ({ p with resourceUrl := acl, virtual := true } : Permission) ALL_MODES
  have hqa : q.agent = p.agent := hqproj.1
  have hqg : q.group = p.group := hqproj.2.1
  have hqu : q.resourceUrl = acl := hqproj.2.2.1
  have hqi : q.inherited = p.inherited := hqproj.2.2.2.1
  have hqv : q.virtual = true := hqproj.2.2.2.2.1
  have hqw : q.webId = some w := by
    unfold Permission.webId
    rw [hqa, hqg]
    exact hw
  have hqwgd : (q.webId).getD [] = w := by rw [hqw]; rfl
  have hqt : q.accessType = p.accessType := by
    unfold Permission.accessType
    rw [hqi]
  have hqpub : (q.isPublic || q.isGroup) = (p.isPublic || p.isGroup) := by
    unfold Permission.isPublic Permission.isGroup
    rw [hqg]
  have hqmem : ∀ m, m ∈ q.accessModes ↔ m ∈ p.accessModes ∨ m ∈ ALL_MODES := by
    intro m
    rw [hqdef]
    exact Permission.mem_addMode
  have hise : acl.isEmpty = false := by
    cases acl with
    | nil => exact absurd rfl hanil
    | cons c cs => rfl
  have hqk : q.hashFragment = some (w, acl) := by
    unfold Permission.hashFragment
    rw [hqw]
    show (if q.resourceUrl.isEmpty = true then none
      else some (w, q.resourceUrl)) = some (w, acl)
    rw [hqu, hise]
    rfl
  have huaclne : ¬(((w, u) : Str × Str) = (w, acl)) := by
    intro he
    exact hane ((Prod.mk.injEq w u w acl |>.mp he).2).symm
  obtain ⟨PS, hAdd, hPperm, hPobjs, hPagents, hPstrict⟩ :
      ∃ PS, ps.addSinglePermission p = Except.ok PS ∧
        PS.permissions = ps.permissions ++ [((w, u), ps.objs.length)] ++
          [((w, acl), ps.objs.length + 1)] ∧
        PS.objs = ps.objs ++ [p] ++ [q] ∧
        PS.agentsIdx = aset
          (aset ps.agentsIdx w [(p.accessType, [(acl, ps.objs.length + 1)])]) w
          (aset [(p.accessType, [(acl, ps.objs.length + 1)])] p.accessType
            (aset [(acl, ps.objs.length + 1)] u ps.objs.length)) ∧
        PS.strictOrigin = ps.strictOrigin := by
    unfold addSinglePermission
    rw [addSingleStep_fresh ps p (w, u) hk hfm1]
    simp only [Bind.bind, Except.bind]
    rw [if_pos hcond]
    set psA : PermissionSet := { ps with
      objs := ps.objs ++ [p],
      permissions := ps.permissions ++ [((w, u), ps.objs.length)] } with hpsA
    have hlenA : psA.objs.length = ps.objs.length + 1 := by
      show (ps.objs ++ [p]).length = ps.objs.length + 1
      simp
    have hqimp : psA.impliedControlPerm p = q := by
      show (({ p with resourceUrl := psA.aclUrlFor p.resourceUrl, virtual := true } : Permission).addMode ALL_MODES) = q
      have h5 : psA.aclUrlFor p.resourceUrl = acl := by
        rw [hu]
        exact hacldef
      rw [h5, hqdef]
    have hfmA2 : alookup psA.permissions (w, acl) = none := by
      show alookup (ps.permissions ++ [((w, u), ps.objs.length)]) (w, acl) =
        none
      rw [alookup_append_of_none hfm2]
      simp [alookup, huaclne]
    have hstep2 := addSingleStep_fresh psA q (w, acl) hqk hfmA2
    have hctrlOK : psA.addControlPermissionsFor p =
        Except.ok (if (p.isPublic || p.isGroup) = true
          then { ps with
              objs := ps.objs ++ [p] ++ [q],
              permissions := ps.permissions ++ [((w, u), ps.objs.length)] ++
                [((w, acl), ps.objs.length + 1)],
              agentsIdx := aset ps.agentsIdx w
                [(p.accessType, [(acl, ps.objs.length + 1)])],
              groupsIdx := aset ps.groupsIdx w
                [(p.accessType, [(acl, ps.objs.length + 1)])] }
          else { ps with
              objs := ps.objs ++ [p] ++ [q],
              permissions := ps.permissions ++ [((w, u), ps.objs.length)] ++
                [((w, acl), ps.objs.length + 1)],
              agentsIdx := aset ps.agentsIdx w
                [(p.accessType, [(acl, ps.objs.length + 1)])] }) := by
      unfold addControlPermissionsFor
      rw [hqimp]
      unfold addSingleBase
      rw [hstep2]
      simp only [Bind.bind, Except.bind]
      rw [hlenA]
      set psB : PermissionSet := { psA with
        objs := psA.objs ++ [q],
        permissions := psA.permissions ++ [((w, acl), ps.objs.length + 1)] }
        with hpsB
      have hfaB : alookup psB.agentsIdx w = none := hfa
      have hfgB : alookup psB.groupsIdx w = none := hfg
      rw [addIndexes_fresh psB q (ps.objs.length + 1) w hqwgd hfaB hfgB]
      rw [hqpub, hqt, hqu]
    simp only [hctrlOK]
    have hT1look : alookup [(p.accessType, [(acl, ps.objs.length + 1)])]
        p.accessType = some [(acl, ps.objs.length + 1)] := by
      simp [alookup]
    by_cases hp : (p.isPublic || p.isGroup) = true
    · rw [if_pos hp]
      set psC1 : PermissionSet := { ps with
        objs := ps.objs ++ [p] ++ [q],
        permissions := ps.permissions ++ [((w, u), ps.objs.length)] ++
          [((w, acl), ps.objs.length + 1)],
        agentsIdx := aset ps.agentsIdx w
          [(p.accessType, [(acl, ps.objs.length + 1)])],
        groupsIdx := aset ps.groupsIdx w
          [(p.accessType, [(acl, ps.objs.length + 1)])] } with hC1
      have hch1 : alookup ((alookup ((alookup psC1.agentsIdx
          ((p.webId).getD [])).getD []) p.accessType).getD [])
          p.resourceUrl = none := by
        rw [hwgd, hu]
        show alookup ((alookup ((alookup (aset ps.agentsIdx w
          [(p.accessType, [(acl, ps.objs.length + 1)])]) w).getD [])
          p.accessType).getD []) u = none
        rw [alookup_aset_self, Option.getD_some, hT1look, Option.getD_some]
        simp [alookup, hane]
      have hC1a : psC1.agentsIdx = aset ps.agentsIdx w
          [(p.accessType, [(acl, ps.objs.length + 1)])] := rfl
      have hIdx := indexPerm_false_insert_cell psC1 p ps.objs.length hch1
      rw [hwgd, hu, hC1a, alookup_aset_self, Option.getD_some, hT1look,
        Option.getD_some] at hIdx
      rw [addIndexes_split psC1 p (some ps.objs.length) _ _ hIdx]
      rw [if_pos hp]
      set psD1 : PermissionSet := { psC1 with
        agentsIdx := aset
          (aset ps.agentsIdx w [(p.accessType, [(acl, ps.objs.length + 1)])])
          w (aset [(p.accessType, [(acl, ps.objs.length + 1)])] p.accessType
            (aset [(acl, ps.objs.length + 1)] u ps.objs.length)) } with hD1
      have hD1g : psD1.groupsIdx = aset ps.groupsIdx w
          [(p.accessType, [(acl, ps.objs.length + 1)])] := rfl
      have hchg : alookup ((alookup ((alookup psD1.groupsIdx
          ((p.webId).getD [])).getD []) p.accessType).getD [])
          p.resourceUrl = none := by
        rw [hwgd, hu, hD1g, alookup_aset_self, Option.getD_some, hT1look,
          Option.getD_some]
        simp [alookup, hane]
      have hIdxg := indexPerm_true_insert_cell psD1 p ps.objs.length hchg
      rw [hwgd, hu, hD1g, alookup_aset_self, Option.getD_some, hT1look,
        Option.getD_some] at hIdxg
      rw [hIdxg]
      exact ⟨_, rfl, rfl, rfl, rfl, rfl⟩
    · rw [if_neg hp]
      set psC2 : PermissionSet := { ps with
        objs := ps.objs ++ [p] ++ [q],
        permissions := ps.permissions ++ [((w, u), ps.objs.length)] ++
          [((w, acl), ps.objs.length + 1)],
        agentsIdx := aset ps.agentsIdx w
          [(p.accessType, [(acl, ps.objs.length + 1)])] } with hC2
      have hch2 : alookup ((alookup ((alookup psC2.agentsIdx
          ((p.webId).getD [])).getD []) p.accessType).getD [])
          p.resourceUrl = none := by
        rw [hwgd, hu]
        show alookup ((alookup ((alookup (aset ps.agentsIdx w
          [(p.accessType, [(acl, ps.objs.length + 1)])]) w).getD [])
          p.accessType).getD []) u = none
        rw [alookup_aset_self, Option.getD_some, hT1look, Option.getD_some]
        simp [alookup, hane]
      have hC2a : psC2.agentsIdx = aset ps.agentsIdx w
          [(p.accessType, [(acl, ps.objs.length + 1)])] := rfl
      have hIdx2 := indexPerm_false_insert_cell psC2 p ps.objs.length hch2
      rw [hwgd, hu, hC2a, alookup_aset_self, Option.getD_some, hT1look,
        Option.getD_some] at hIdx2
      rw [addIndexes_split psC2 p (some ps.objs.length) _ _ hIdx2]
      rw [if_neg hp]
      exact ⟨_, rfl, rfl, rfl, rfl, rfl⟩
  have hg1 : PS.getObj ps.objs.length = p := by
    show PS.objs.getD ps.objs.length default = p
    rw [hPobjs]
    rw [getD_append_left (ps.objs ++ [p]) [q] ps.objs.length default
      (by simp)]
    exact getD_append_self ps.objs p default
  have hg2 : PS.getObj (ps.objs.length + 1) = q := by
    show PS.objs.getD (ps.objs.length + 1) default = q
    rw [hPobjs]
    have h1 : (ps.objs ++ [p]).length = ps.objs.length + 1 := by simp
    rw [← h1]
    exact getD_append_self (ps.objs ++ [p]) q default
  have hcount : PS.count = ps.count + 2 := by
    show PS.permissions.length = ps.permissions.length + 2
    rw [hPperm]
    simp only [List.length_append, List.length_cons, List.length_nil]
  have hlk1 : alookup PS.permissions (w, u) = some ps.objs.length := by
    rw [hPperm]
    apply alookup_append_of_some
    rw [alookup_append_of_none hfm1]
    simp [alookup]
  have hlk2 : alookup PS.permissions (w, acl) = some (ps.objs.length + 1) := by
    rw [hPperm]
    have hn : alookup (ps.permissions ++ [((w, u), ps.objs.length)])
        (w, acl) = none := by
      rw [alookup_append_of_none hfm2]
      simp [alookup, huaclne]
    rw [alookup_append_of_none hn]
    simp [alookup]
  have hser : PS.getObj (ps.objs.length + 1) ∉ PS.serializedPermissions := by
    rw [hg2]
    exact virtual_not_serialized PS q hqv
  have hgrant : ∀ m, m ∈ ALL_MODES →
      PS.checkAccess acl w m {} = Except.ok true := by
    intro m hm
    have hmq : m ∈ q.accessModes := (hqmem m).mpr (Or.inr hm)
    have hallow : (PS.getObj (ps.objs.length + 1)).allowsMode m = true := by
      rw [hg2]
      exact Permission.allowsMode_iff.mpr (Or.inl hmq)
    have htop : alookup PS.agentsIdx w = some
        (aset [(p.accessType, [(acl, ps.objs.length + 1)])] p.accessType
          (aset [(acl, ps.objs.length + 1)] u ps.objs.length)) := by
      rw [hPagents]
      exact alookup_aset_self _ _ _
    have hR2 : alookup (aset [(acl, ps.objs.length + 1)] u ps.objs.length)
        acl = some (ps.objs.length + 1) := by
      rw [alookup_aset_ne [(acl, ps.objs.length + 1)] u acl
        ps.objs.length hane]
      simp [alookup]
    have hfind : PS.findPermByAgent w acl AGENT_INDEX =
        some (ps.objs.length + 1) := by
      by_cases hinh : p.inherited = true
      · have ht : p.accessType = DEFAULT := by
          simp [Permission.accessType, hinh]
        have hAT : alookup (aset
            [(p.accessType, [(acl, ps.objs.length + 1)])] p.accessType
            (aset [(acl, ps.objs.length + 1)] u ps.objs.length))
            ACCESS_TO = none := by
          rw [ht]
          rw [alookup_aset_ne _ DEFAULT ACCESS_TO _ (by decide)]
          simp [alookup, show ¬(DEFAULT = ACCESS_TO) from by decide]
        have hD : alookup (aset
            [(p.accessType, [(acl, ps.objs.length + 1)])] p.accessType
            (aset [(acl, ps.objs.length + 1)] u ps.objs.length))
            DEFAULT = some (aset [(acl, ps.objs.length + 1)] u
              ps.objs.length) := by
          rw [ht]
          exact alookup_aset_self _ _ _
        exact findPermByAgent_agents_default_exact PS w acl _ _ _ htop
          (by rw [hAT]; rfl) hD hR2
      · have hAT : alookup (aset
            [(p.accessType, [(acl, ps.objs.length + 1)])] p.accessType
            (aset [(acl, ps.objs.length + 1)] u ps.objs.length))
            ACCESS_TO = some (aset [(acl, ps.objs.length + 1)] u
              ps.objs.length) := by
          rw [show p.accessType = ACCESS_TO from by
            simp [Permission.accessType, hinh]]
          exact alookup_aset_self _ _ _
        exact findPermByAgent_agents_accessTo PS w acl _ _ _ htop hAT hR2
    have hagent : PS.checkAccessForAgent acl w m = true := by
      unfold checkAccessForAgent
      rw [hfind]
      show (PS.checkOrigin (PS.getObj (ps.objs.length + 1)) &&
        (PS.getObj (ps.objs.length + 1)).allowsMode m) = true
      rw [hallow, Bool.and_true]
      simp [checkOrigin, hPstrict, hso]
    unfold checkAccess
    by_cases hpub : PS.allowsPublic m acl = true
    · rw [if_pos hpub]
    · rw [if_neg hpub, if_pos hagent]
  refine ⟨PS, hAdd, hcount, hlk1, hg1, hlk2, ?_, ?_, ?_, ?_, ?_, hser, hgrant⟩
  · rw [hg2]
    exact hqa
  · rw [hg2]
    exact hqg
  · rw [hg2]
    exact hqu
  · rw [hg2]
    exact hqv
  · intro m
    rw [hg2]
    exact hqmem m


/-- Witness for C4: adding a {Control, Append} permission for agent `a` on
`/d/f` to an empty set yields count 2, the virtual permission at the policy
resource `/d/f.acl` with the union mode set, excluded from the serializable
view, and Read/Write/Control granted on `/d/f.acl`. -/
theorem C4_control_synthesis_witness :
    ∃ ps', (mkPermissionSet "/d/f".data).addSinglePermission
        { resourceUrl := "/d/f".data, agent := some "a".data,
          accessModes := [CONTROL, APPEND] } = Except.ok ps' ∧
      ps'.count = 2 ∧
      alookup ps'.permissions ("a".data, "/d/f".data) = some 0 ∧
      ps'.getObj 0 =
        { resourceUrl := "/d/f".data, agent := some "a".data,
          accessModes := [CONTROL, APPEND] } ∧
      alookup ps'.permissions ("a".data, "/d/f.acl".data) = some 1 ∧
      (ps'.getObj 1).agent = some "a".data ∧
      (ps'.getObj 1).group = none ∧
      (ps'.getObj 1).resourceUrl = "/d/f.acl".data ∧
      (ps'.getObj 1).virtual = true ∧
      (∀ m, m ∈ (ps'.getObj 1).accessModes ↔
        m ∈ [CONTROL, APPEND] ∨ m ∈ ALL_MODES) ∧
      ps'.getObj 1 ∉ ps'.serializedPermissions ∧
      ∀ m ∈ ALL_MODES,
        ps'.checkAccess "/d/f.acl".data "a".data m {} = Except.ok true :=
  C4_control_synthesis (mkPermissionSet "/d/f".data)
    { resourceUrl := "/d/f".data, agent := some "a".data,
      accessModes := [CONTROL, APPEND] }
    "a".data "/d/f".data "/d/f.acl".data
    (by decide) (by decide) (by decide) (by decide) (by decide) (by decide)
    (by decide) (by decide) (by decide) (by decide) (by decide)

end PermissionSet

end SolidPermissions
